import Mathlib

set_option maxHeartbeats 1000000

-- Shallow embedding of src/rpc/rawtransaction_util.cpp (Elements transaction
-- construction and peg-in verification engine).  External collaborators
-- (decoders, script hashing, the federation resolver, the witness verifier,
-- the signer) are modelled as an explicit `Externals` record threaded through
-- every function, matching the spec's description of them as typed services.

abbrev Script : Type := List Nat

abbrev Uint256 : Type := Nat

inductive ErrCode where
  | invalidParameter
  | typeError
  | invalidAddressOrKey
  | deserializationError
  | internalError
  deriving DecidableEq, Repr

structure Err where
  code : ErrCode
  msg : String
  deriving DecidableEq, Repr

structure OutPoint where
  hash : Uint256
  n : Nat
  deriving DecidableEq, Repr

-- CConfidentialValue: null, explicit amount, or a commitment.
inductive ConfValue where
  | null
  | explicit (a : Int)
  | commitment (c : List Nat)
  deriving DecidableEq, Repr

def ConfValue.isNull : ConfValue → Bool
  | ConfValue.null => true
  | _ => false

def ConfValue.getAmount : ConfValue → Int
  | ConfValue.explicit a => a
  | _ => 0

structure CTxOut where
  nAsset : Nat
  nValue : ConfValue
  scriptPubKey : Script
  nNonce : List Nat
  deriving DecidableEq, Repr

structure CTxIn where
  prevout : OutPoint
  scriptSig : Script
  nSequence : Nat
  m_is_pegin : Bool
  deriving DecidableEq, Repr

structure CTxInWitness where
  scriptWitness : List (List Nat)
  m_pegin_witness : List (List Nat)
  deriving DecidableEq, Repr

structure CMutableTransaction where
  vin : List CTxIn
  vout : List CTxOut
  nLockTime : Nat
  witness : List CTxInWitness
  deriving DecidableEq, Repr

structure ParentOut where
  scriptPubKey : Script
  raw : Nat
  deriving DecidableEq, Repr

-- The decoded parent-chain transaction; GetHash is modelled as a stored field.
structure ParentTx where
  txHash : Uint256
  vout : List ParentOut
  deriving DecidableEq, Repr

structure MerkleBlock where
  hashMerkleRoot : Uint256
  headerHash : Uint256
  nBits : Nat
  txnPayload : Nat
  deriving DecidableEq, Repr

-- A JSON-like UniValue.
inductive UV where
  | null
  | str (s : String)
  | num (n : Int)
  | boolean (b : Bool)
  | arr (elems : List UV)
  | obj (entries : List (String × UV))

def UV.isNull : UV → Bool
  | UV.null => true
  | _ => false

def UV.getValStr : UV → String
  | UV.str s => s
  | UV.num n => toString n
  | _ => ""

def uvFind : List (String × UV) → String → UV
  | [], _ => UV.null
  | (k, v) :: rest, key => if k = key then v else uvFind rest key

def uvHasKey (es : List (String × UV)) (k : String) : Bool :=
  es.any (fun p => p.1 == k)

-- External collaborators consumed by the engine (see spec section 6).
structure Externals where
  decodeTx : List Nat → Option ParentTx
  decodeProof : List Nat → Option (MerkleBlock × Nat)
  extractMatches : MerkleBlock → Uint256 × List Uint256 × List Nat
  fedpegscripts : List (Script × Script)
  calculateContract : Script → Script → Script
  p2wshScriptFor : Script → Script
  p2shScriptFor : Script → Script
  isP2SH : Script → Bool
  isP2WSH : Script → Bool
  isWitnessProgram : Script → Option (Nat × List Nat)
  getAmount : ParentTx → Nat → Option Int
  peggedAsset : Nat
  parentPeggedAssetHex : String
  parentGenesisHash : Nat
  createPeginWitness : Int → Nat → Nat → Script → ParentTx → MerkleBlock → List (List Nat)
  isValidPeginWitness : List (List Nat) → List (Script × Script) → OutPoint → Bool → Option String
  parentChainHasPow : Bool
  checkParentPow : Uint256 → Nat → Bool
  checkSignedParent : MerkleBlock → Bool
  policyAsset : Nat
  parseHash : String → Option Nat
  amountFromValue : UV → Option Int
  isHexStr : String → Bool
  parseHexLenient : String → List Nat
  decodeDest : String → Option Nat
  scriptForDest : Nat → Script
  isBlindDest : Nat → Bool
  blindingKey : Nat → List Nat
  scriptToAsm : Script → String
  parseSighash : UV → Option Int
  encodeHexTx : CMutableTransaction → String
  txOutToString : CTxOut → String

def SEQUENCE_FINAL : Nat := 0xffffffff

def MAX_BIP125_RBF_SEQUENCE : Nat := 0xfffffffd

def LOCKTIME_MAX : Int := 0xffffffff

def MAX_MONEY : Int := 2100000000000000

def defaultTxIn : CTxIn := ⟨⟨0, 0xffffffff⟩, [], SEQUENCE_FINAL, false⟩

def defaultTxInWitness : CTxInWitness := ⟨[], []⟩

def defaultTxOut : CTxOut := ⟨0, ConfValue.null, [], []⟩

def witIsNull (w : CTxInWitness) : Bool :=
  w.scriptWitness.isEmpty && w.m_pegin_witness.isEmpty

-- Explicit bind on Except, used so that success can be peeled off step by step.
def exBind {α β : Type} (e : Except Err α) (f : α → Except Err β) : Except Err β :=
  match e with
  | Except.error er => Except.error er
  | Except.ok a => f a

-- vector resize to index+1 when the container is too short (never shrinks).
def growForIndex {α : Type} (l : List α) (idx : Nat) (d : α) : List α :=
  if l.length ≤ idx then l ++ List.replicate (idx + 1 - l.length) d else l

-- First index whose element satisfies p (the inner scan loop of
-- GetPeginTxnOutputIndex).
def findFirstIdx {α : Type} (p : α → Bool) : List α → Option Nat
  | [] => none
  | a :: rest => if p a then some 0 else (findFirstIdx p rest).map (· + 1)

-- Expected mainchain destination script for one federation configuration
-- (lines 31-34): witness-v0 script hash of the contract, re-wrapped as a
-- script hash when the configuration's first script is pay-to-script-hash.
def mainchainScriptFor (ext : Externals) (cfg : Script × Script) (wp : Script) : Script :=
  let base := ext.p2wshScriptFor (ext.calculateContract cfg.2 wp)
  if ext.isP2SH cfg.1 then ext.p2shScriptFor base else base

-- GetPeginTxnOutputIndex (lines 27-42).
def getPeginTxnOutputIndex (ext : Externals) (txn : ParentTx) (witnessProgram : Script) :
    List (Script × Script) → Nat
  | [] => txn.vout.length
  | cfg :: rest =>
    match findFirstIdx (fun o => o.scriptPubKey == mainchainScriptFor ext cfg witnessProgram) txn.vout with
    | some n => n
    | none => getPeginTxnOutputIndex ext txn witnessProgram rest

-- Specification-side restatement of the claim matcher: the first matching
-- output of the first configuration that matches any output, else the output
-- count as sentinel.
def getPeginTxnOutputIndexSpec (ext : Externals) (txn : ParentTx) (wp : Script)
    (feds : List (Script × Script)) : Nat :=
  match feds.find? (fun cfg => txn.vout.any (fun o => o.scriptPubKey == mainchainScriptFor ext cfg wp)) with
  | some cfg => (findFirstIdx (fun o => o.scriptPubKey == mainchainScriptFor ext cfg wp) txn.vout).getD txn.vout.length
  | none => txn.vout.length

-- Input-reuse guard (line 48).
def alreadyFilled (mtx : CMutableTransaction) (idx : Nat) : Bool :=
  (decide (idx < mtx.vin.length) && !(mtx.vin.getD idx defaultTxIn).scriptSig.isEmpty) ||
  (decide (idx < mtx.witness.length) && !(witIsNull (mtx.witness.getD idx defaultTxInWitness)))

-- The claim-script scan of lines 83-89: the first script in iteration order
-- of the supplied set whose matcher result is not the sentinel.  The std::set
-- of the source is modelled by its iteration sequence, per the spec's
-- description of the claim script set as a deduplicated caller-supplied set.
def selectClaimScript (ext : Externals) (ptx : ParentTx) (claims : List Script) : Option Script :=
  claims.find? (fun t => getPeginTxnOutputIndex ext ptx t ext.fedpegscripts != ptx.vout.length)

-- Lines 97-134 of CreatePegInInputInner: everything after a claim script has
-- been selected.  txHash0 is txHashes[0] from the proof.
def pegInBody (ext : Externals) (mtx : CMutableTransaction) (inputIdx : Nat)
    (ptx : ParentTx) (mb : MerkleBlock) (txHash0 : Uint256) (ws : Script) :
    Except Err (ParentTx × MerkleBlock) × CMutableTransaction :=
  if ws = ([] : Script) then
    (Except.error ⟨ErrCode.internalError, "Internal check failed: witness_script != CScript()"⟩, mtx)
  else
    match ext.isWitnessProgram ws with
    | none => (Except.error ⟨ErrCode.invalidParameter, "Given or recovered script is not a v0 witness program."⟩, mtx)
    | some (version, _prog) =>
      if version ≠ 0 then
        (Except.error ⟨ErrCode.invalidParameter, "Given or recovered script is not a v0 witness program."⟩, mtx)
      else
        let nOut := getPeginTxnOutputIndex ext ptx ws ext.fedpegscripts
        match ext.getAmount ptx nOut with
        | none => (Except.error ⟨ErrCode.invalidParameter,
            "Amounts to pegin must be explicit and asset must be " ++ ext.parentPeggedAssetHex⟩, mtx)
        | some value =>
          let vin2 := (growForIndex mtx.vin inputIdx defaultTxIn).set inputIdx
            ⟨⟨txHash0, nOut⟩, [], SEQUENCE_FINAL, false⟩
          let mtx1 := { mtx with vin := vin2 }
          let pw := ext.createPeginWitness value ext.peggedAsset ext.parentGenesisHash ws ptx mb
          match ext.isValidPeginWitness pw ext.fedpegscripts ⟨txHash0, nOut⟩ false with
          | some err =>
            (Except.error ⟨ErrCode.invalidParameter, "Constructed peg-in witness is invalid: " ++ err⟩, mtx1)
          | none =>
            let vin3 := vin2.set inputIdx ⟨⟨txHash0, nOut⟩, [], SEQUENCE_FINAL, true⟩
            let wit2 := (growForIndex mtx.witness inputIdx defaultTxInWitness).set inputIdx ⟨[], pw⟩
            (Except.ok (ptx, mb), { mtx1 with vin := vin3, witness := wit2 })

-- CreatePegInInputInner (lines 46-135).  The second component of the result
-- is the state of the target transaction when the call returns or throws;
-- decoded parent transaction and merkle block are returned on success (they
-- are out-parameters in the source).
def createPegInInputInner (ext : Externals) (mtx : CMutableTransaction) (inputIdx : Nat)
    (claimScripts : List Script) (txData proofData : List Nat) :
    Except Err (ParentTx × MerkleBlock) × CMutableTransaction :=
  if alreadyFilled mtx inputIdx then
    (Except.error ⟨ErrCode.invalidParameter,
      "Attempting to add a peg-in to an input that already has a scriptSig or witness"⟩, mtx)
  else
    match ext.decodeTx txData with
    | none => (Except.error ⟨ErrCode.typeError,
        "The included bitcoinTx is malformed. Are you sure that is the whole string?"⟩, mtx)
    | some ptx =>
      match ext.decodeProof proofData with
      | none => (Except.error ⟨ErrCode.typeError,
          "The included txoutproof is malformed. Are you sure that is the whole string?"⟩, mtx)
      | some (mb, leftover) =>
        if leftover ≠ 0 then
          (Except.error ⟨ErrCode.invalidParameter, "Invalid tx out proof"⟩, mtx)
        else
          let em := ext.extractMatches mb
          if em.1 ≠ mb.hashMerkleRoot then
            (Except.error ⟨ErrCode.invalidParameter, "Invalid tx out proof"⟩, mtx)
          else if em.2.1 ≠ [ptx.txHash] then
            (Except.error ⟨ErrCode.invalidParameter, "The txoutproof must contain bitcoinTx and only bitcoinTx"⟩, mtx)
          else
            match selectClaimScript ext ptx claimScripts with
            | none => (Except.error ⟨ErrCode.invalidParameter,
                if claimScripts.length = 1 then
                  "Given claim_script does not match the given Bitcoin transaction."
                else
                  "Failed to find output in bitcoinTx to the mainchain_address from getpeginaddress"⟩, mtx)
            | some ws => pegInBody ext mtx inputIdx ptx mb em.2.1.headI ws

-- Modelled from the spec: SignalsOptInRBF (util/rbf, outside this unit) — a
-- transaction signals opt-in replaceability when some input's sequence number
-- is below SEQUENCE_FINAL - 1.
def signalsOptInRBF (tx : CMutableTransaction) : Bool :=
  tx.vin.any (fun i => decide (i.nSequence < SEQUENCE_FINAL - 1))

-- Default and caller-supplied sequence number handling (lines 189-207).
def computeSequence (rbf : Bool) (lockTime : Nat) (o : List (String × UV)) : Except Err Nat :=
  let dflt : Nat :=
    if rbf then MAX_BIP125_RBF_SEQUENCE
    else if lockTime ≠ 0 then SEQUENCE_FINAL - 1
    else SEQUENCE_FINAL
  match uvFind o "sequence" with
  | UV.num s =>
    if s < 0 ∨ (SEQUENCE_FINAL : Int) < s then
      Except.error ⟨ErrCode.invalidParameter, "Invalid parameter, sequence number is out of range"⟩
    else Except.ok s.toNat
  | _ => Except.ok dflt

-- ParseHashO: look the key up in an object and parse it as a 256-bit hash.
def parseHashOE (ext : Externals) (o : List (String × UV)) (key : String) : Except Err Uint256 :=
  match uvFind o key with
  | UV.str s =>
    match ext.parseHash s with
    | some h => Except.ok h
    | none => Except.error ⟨ErrCode.invalidParameter, key ++ " must be of length 64 (not hex)"⟩
  | _ => Except.error ⟨ErrCode.invalidParameter, key ++ " must be hexadecimal string"⟩

-- ParseHexV on a string argument: IsHex check, then the parsed bytes.
def parseHexStrE (ext : Externals) (s : String) (strName : String) : Except Err (List Nat) :=
  if ext.isHexStr s then Except.ok (ext.parseHexLenient s)
  else Except.error ⟨ErrCode.invalidParameter, strName ++ " must be hexadecimal string"⟩

-- AmountFromValue (external) lifted into the error monad.
def amountFromValueE (ext : Externals) (v : UV) : Except Err Int :=
  match ext.amountFromValue v with
  | some a => Except.ok a
  | none => Except.error ⟨ErrCode.typeError, "Invalid amount"⟩

-- Modelled from the spec: an OP_RETURN-style script carrying the given pushes
-- (CScript serialization itself is external to this unit).
def opReturnScript (ds : List (List Nat)) : Script :=
  0x6a :: ds.foldr (fun d acc => (d.length :: d) ++ acc) []

-- One input of the inputs array (lines 176-247).
def processOneInput (ext : Externals) (allowPegIn : Bool) (rbf : Bool)
    (inp : UV) (idx : Nat) (mtx : CMutableTransaction) : Except Err CMutableTransaction :=
  match inp with
  | UV.obj o =>
    exBind (parseHashOE ext o "txid") (fun txid =>
      match uvFind o "vout" with
      | UV.num v =>
        if v < 0 then
          Except.error ⟨ErrCode.invalidParameter, "Invalid parameter, vout cannot be negative"⟩
        else
          exBind (computeSequence rbf mtx.nLockTime o) (fun seq =>
            let mtx1 := { mtx with vin := mtx.vin ++ [⟨⟨txid, v.toNat⟩, [], seq, false⟩] }
            let pt := uvFind o "pegin_bitcoin_tx"
            let pp := uvFind o "pegin_txout_proof"
            let ps := uvFind o "pegin_claim_script"
            if !pt.isNull && !pp.isNull && !ps.isNull && allowPegIn then
              match ps with
              | UV.str pss =>
                if !ext.isHexStr pss then
                  Except.error ⟨ErrCode.invalidParameter, "Given claim_script is not hex."⟩
                else
                  match pt, pp with
                  | UV.str pts, UV.str pps =>
                    match createPegInInputInner ext mtx1 idx [ext.parseHexLenient pss]
                        (ext.parseHexLenient pts) (ext.parseHexLenient pps) with
                    | (Except.error e, _) => Except.error e
                    | (Except.ok (_ptx, mb), mtx2) =>
                      if ext.parentChainHasPow then
                        if ext.checkParentPow mb.headerHash mb.nBits then Except.ok mtx2
                        else Except.error ⟨ErrCode.invalidParameter, "Invalid tx out proof"⟩
                      else
                        if ext.checkSignedParent mb then Except.ok mtx2
                        else Except.error ⟨ErrCode.invalidParameter, "Invalid tx out proof"⟩
                  | _, _ => Except.error ⟨ErrCode.typeError, "JSON value is not a string as expected"⟩
              | _ => Except.error ⟨ErrCode.typeError, "JSON value is not a string as expected"⟩
            else if !pt.isNull || !pp.isNull || !ps.isNull then
              if allowPegIn then
                Except.error ⟨ErrCode.invalidParameter, "Some but not all pegin_ arguments provided"⟩
              else
                Except.error ⟨ErrCode.invalidParameter, "pegin_ arguments provided but this command does not support peg-ins"⟩
            else Except.ok mtx1)
      | _ => Except.error ⟨ErrCode.invalidParameter, "Invalid parameter, missing vout key"⟩)
  | _ => Except.error ⟨ErrCode.typeError, "JSON value is not an object as expected"⟩

def processInputs (ext : Externals) (allowPegIn : Bool) (rbf : Bool) :
    List UV → Nat → CMutableTransaction → Except Err CMutableTransaction
  | [], _, mtx => Except.ok mtx
  | inp :: rest, idx, mtx =>
    exBind (processOneInput ext allowPegIn rbf inp idx mtx)
      (fun mtx1 => processInputs ext allowPegIn rbf rest (idx + 1) mtx1)

-- Translation of the array output form into the flat object form (lines 249-263).
def translateOutputs : List UV → Except Err (List (String × UV))
  | [] => Except.ok []
  | u :: rest =>
    match u with
    | UV.obj es =>
      if es.length = 1 then exBind (translateOutputs rest) (fun r => Except.ok (es ++ r))
      else Except.error ⟨ErrCode.invalidParameter, "Invalid parameter, key-value pair must contain exactly one key"⟩
    | _ => Except.error ⟨ErrCode.invalidParameter, "Invalid parameter, key-value pair not an object as expected"⟩

def parseAssets : UV → Except Err (Option (List (String × UV)))
  | UV.null => Except.ok none
  | UV.obj es => Except.ok (some es)
  | _ => Except.error ⟨ErrCode.typeError, "JSON value is not an object as expected"⟩

-- Per-output asset resolution (lines 273-279): policy asset unless the asset
-- map names this output.
def assetForE (ext : Externals) (ao : Option (List (String × UV))) (name : String) : Except Err Nat :=
  match ao with
  | none => Except.ok ext.policyAsset
  | some aes =>
    match uvFind aes name with
    | UV.null => Except.ok ext.policyAsset
    | UV.str s =>
      match ext.parseHash s with
      | some h => Except.ok h
      | none => Except.error ⟨ErrCode.invalidParameter, name ++ " must be of length 64 (not hex)"⟩
    | _ => Except.error ⟨ErrCode.invalidParameter, name ++ " must be hexadecimal string"⟩

def vdataBytes (ext : Externals) : List UV → Except Err (List (List Nat))
  | [] => Except.ok []
  | UV.str s :: rest =>
    exBind (parseHexStrE ext s "Data") (fun d =>
      exBind (vdataBytes ext rest) (fun ds => Except.ok (d :: ds)))
  | _ :: _ => Except.error ⟨ErrCode.typeError, "JSON value is not a string as expected"⟩

-- State of the output-construction loop.
structure OState where
  vout : List CTxOut
  feeOut : CTxOut
  dests : List Nat
  hasData : Bool
  pubkeys : List (List Nat)
  deriving DecidableEq, Repr

def initialOState : OState := ⟨[], defaultTxOut, [], false, []⟩

-- One iteration of the output loop (lines 271-346), dispatching on the key.
-- Values are looked up by first occurrence of the key in the whole entry
-- list, as UniValue's operator[] does.
def outStep (ext : Externals) (collect : Bool) (ao : Option (List (String × UV)))
    (entries : List (String × UV)) (s : OState) (name : String) : Except Err OState :=
  exBind (assetForE ext ao name) (fun asset =>
    if name = "data" then
      if s.hasData then Except.error ⟨ErrCode.invalidParameter, "Invalid parameter, duplicate key: data"⟩
      else
        exBind (parseHexStrE ext (uvFind entries name).getValStr "Data") (fun data =>
          Except.ok { s with hasData := true,
                             vout := s.vout ++ [⟨asset, ConfValue.explicit 0, opReturnScript [data], []⟩],
                             pubkeys := s.pubkeys ++ (if collect then [[]] else []) })
    else if name = "vdata" then
      match uvFind entries name with
      | UV.arr elems =>
        exBind (vdataBytes ext elems) (fun ds =>
          Except.ok { s with vout := s.vout ++ [⟨asset, ConfValue.explicit 0, opReturnScript ds, []⟩],
                             pubkeys := s.pubkeys ++ (if collect then [[]] else []) })
      | _ => Except.error ⟨ErrCode.typeError, "JSON value is not an array as expected"⟩
    else if name = "fee" then
      exBind (amountFromValueE ext (uvFind entries name)) (fun a =>
        Except.ok { s with feeOut := ⟨asset, ConfValue.explicit a, [], []⟩ })
    else if name = "burn" then
      exBind (amountFromValueE ext (uvFind entries name)) (fun a =>
        Except.ok { s with vout := s.vout ++ [⟨asset, ConfValue.explicit a, opReturnScript [], []⟩],
                           pubkeys := s.pubkeys ++ (if collect then [[]] else []) })
    else
      match ext.decodeDest name with
      | none => Except.error ⟨ErrCode.invalidAddressOrKey, "Invalid Bitcoin address: " ++ name⟩
      | some dest =>
        if s.dests.contains dest then
          Except.error ⟨ErrCode.invalidParameter, "Invalid parameter, duplicated address: " ++ name⟩
        else
          exBind (amountFromValueE ext (uvFind entries name)) (fun a =>
            let blind := ext.isBlindDest dest
            let nonce := if blind && !collect then ext.blindingKey dest else []
            let bkey := if blind then ext.blindingKey dest else []
            Except.ok { s with dests := s.dests ++ [dest],
                               vout := s.vout ++ [⟨asset, ConfValue.explicit a, ext.scriptForDest dest, nonce⟩],
                               pubkeys := s.pubkeys ++ (if collect then [bkey] else []) }))

def outFold (ext : Externals) (collect : Bool) (ao : Option (List (String × UV)))
    (entries : List (String × UV)) : List String → OState → Except Err OState
  | [], s => Except.ok s
  | n :: rest, s =>
    exBind (outStep ext collect ao entries s n) (fun s1 => outFold ext collect ao entries rest s1)

def processOutputs (ext : Externals) (collect : Bool) (ao : Option (List (String × UV)))
    (entries : List (String × UV)) : Except Err OState :=
  outFold ext collect ao entries (entries.map Prod.fst) initialOState

-- Fee materialization (lines 348-354): only a non-null, strictly positive fee
-- output is appended, at the very end.
def feeCondition (fo : CTxOut) : Bool :=
  !fo.nValue.isNull && decide (0 < fo.nValue.getAmount)

-- ConstructTransaction (lines 146-361).  The boolean `collect` stands for a
-- non-null output_pubkeys_out collector; collected keys are the second result.
def constructTransaction (ext : Externals) (inputsIn outputsIn locktime assetsIn : UV)
    (rbf : Bool) (collect : Bool) (allowPegIn : Bool) :
    Except Err (CMutableTransaction × List (List Nat)) :=
  if outputsIn.isNull then
    Except.error ⟨ErrCode.invalidParameter, "Invalid parameter, output argument must be non-null"⟩
  else
    exBind (match inputsIn with
            | UV.null => Except.ok []
            | UV.arr l => Except.ok l
            | _ => Except.error ⟨ErrCode.typeError, "JSON value is not an array as expected"⟩)
      (fun inputs =>
    exBind (match outputsIn with
            | UV.obj es => Except.ok (Sum.inl es)
            | UV.arr l => Except.ok (Sum.inr l)
            | _ => Except.error ⟨ErrCode.typeError, "JSON value is not an array as expected"⟩)
      (fun outputsRep =>
    exBind (match locktime with
            | UV.null => Except.ok 0
            | UV.num n =>
              if n < 0 ∨ LOCKTIME_MAX < n then
                Except.error ⟨ErrCode.invalidParameter, "Invalid parameter, locktime out of range"⟩
              else Except.ok n.toNat
            | _ => Except.error ⟨ErrCode.typeError, "JSON value is not an integer as expected"⟩)
      (fun lock =>
    exBind (parseAssets assetsIn) (fun ao =>
    exBind (processInputs ext allowPegIn rbf inputs 0 ⟨[], [], lock, []⟩) (fun mtx1 =>
    exBind (match outputsRep with
            | Sum.inl es => Except.ok es
            | Sum.inr l => translateOutputs l)
      (fun entries =>
    exBind (processOutputs ext collect ao entries) (fun s =>
      let vout2 := if feeCondition s.feeOut then s.vout ++ [s.feeOut] else s.vout
      let pks2 := if feeCondition s.feeOut then s.pubkeys ++ (if collect then [[]] else []) else s.pubkeys
      let tx : CMutableTransaction := { mtx1 with vout := vout2 }
      if rbf && decide (0 < tx.vin.length) && !signalsOptInRBF tx then
        Except.error ⟨ErrCode.invalidParameter,
          "Invalid parameter combination: Sequence number(s) contradict replaceable option"⟩
      else Except.ok (tx, pks2))))))))

-- Coin (coins.h, outside this unit).  Modelled from the spec: an
-- unspent-output descriptor with a synthetic height marker and a spent flag.
structure Coin where
  out : CTxOut
  nHeight : Nat
  spent : Bool
  deriving DecidableEq, Repr

abbrev CoinsMap : Type := List (OutPoint × Coin)

def lookupCoin : CoinsMap → OutPoint → Option Coin
  | [], _ => none
  | (o, c) :: rest, k => if o = k then some c else lookupCoin rest k

def coinsInsert : CoinsMap → OutPoint → Coin → CoinsMap
  | [], k, c => [(k, c)]
  | (o, c0) :: rest, k, c => if o = k then (k, c) :: rest else (o, c0) :: coinsInsert rest k c

-- RPCTypeCheckObj for one key.
def checkKeyType (es : List (String × UV)) (key : String) (isType : UV → Bool)
    (typeName : String) (allowNull : Bool) : Except Err Unit :=
  let v := uvFind es key
  if !allowNull && v.isNull then Except.error ⟨ErrCode.typeError, "Missing " ++ key⟩
  else if isType v || (allowNull && v.isNull) then Except.ok ()
  else Except.error ⟨ErrCode.typeError, "Expected type " ++ typeName ++ " for " ++ key⟩

def uvIsStr : UV → Bool
  | UV.str _ => true
  | _ => false

def uvIsNum : UV → Bool
  | UV.num _ => true
  | _ => false

-- ParseHexV on a UniValue argument.
def parseHexVUV (ext : Externals) (v : UV) (strName : String) : Except Err (List Nat) :=
  match v with
  | UV.str s => parseHexStrE ext s strName
  | _ => Except.error ⟨ErrCode.invalidParameter, strName ++ " must be hexadecimal string"⟩

-- Lines 393-409 of ParsePrevouts: required fields of one record.
def prevParse (ext : Externals) (es : List (String × UV)) : Except Err (OutPoint × Script) :=
  exBind (checkKeyType es "scriptPubKey" uvIsStr "string" false) (fun _ =>
  exBind (checkKeyType es "txid" uvIsStr "string" false) (fun _ =>
  exBind (checkKeyType es "vout" uvIsNum "number" false) (fun _ =>
  exBind (parseHashOE ext es "txid") (fun txid =>
  match uvFind es "vout" with
  | UV.num v =>
    if v < 0 then Except.error ⟨ErrCode.deserializationError, "vout cannot be negative"⟩
    else
      exBind (parseHexVUV ext (uvFind es "scriptPubKey") "scriptPubKey") (fun pk =>
        Except.ok (⟨txid, v.toNat⟩, pk))
  | _ => Except.error ⟨ErrCode.typeError, "Expected type number for vout"⟩))))

-- Lines 421-427: the recorded coin's value — explicit amount if given, else
-- commitment if given, else the MAX_MONEY ceiling.
def coinValueFor (ext : Externals) (es : List (String × UV)) : Except Err ConfValue :=
  if uvHasKey es "amount" then
    exBind (amountFromValueE ext (uvFind es "amount")) (fun a => Except.ok (ConfValue.explicit a))
  else if uvHasKey es "amountcommitment" then
    exBind (parseHexVUV ext (uvFind es "amountcommitment") "amountcommitment")
      (fun c => Except.ok (ConfValue.commitment c))
  else Except.ok (ConfValue.explicit MAX_MONEY)

-- Lines 432-500: redeem/witness script resolution and registration with the
-- key provider (the keystore is modelled by the list of registered scripts).
def prevKeystorePart (ext : Externals) (es : List (String × UV)) (spk : Script)
    (ks : List Script) : Except Err (List Script) :=
  exBind (checkKeyType es "redeemScript" uvIsStr "string" true) (fun _ =>
  exBind (checkKeyType es "witnessScript" uvIsStr "string" true) (fun _ =>
  let rs := uvFind es "redeemScript"
  let ws := uvFind es "witnessScript"
  if rs.isNull && ws.isNull then
    Except.error ⟨ErrCode.invalidParameter, "Missing redeemScript/witnessScript"⟩
  else
    exBind (if !ws.isNull then parseHexVUV ext ws "witnessScript" else parseHexVUV ext rs "redeemScript")
      (fun script =>
    let ks2 := (ks ++ [script]) ++ [ext.p2wshScriptFor script]
    let wos := ext.p2wshScriptFor script
    exBind (if !ws.isNull && !rs.isNull && ws.getValStr ≠ rs.getValStr then
              exBind (parseHexVUV ext rs "redeemScript") (fun redeemScript =>
                if redeemScript ≠ wos then
                  Except.error ⟨ErrCode.invalidParameter, "redeemScript does not correspond to witnessScript"⟩
                else Except.ok ())
            else Except.ok ())
      (fun _ =>
    if ext.isP2SH spk then
      if spk = ext.p2shScriptFor script then Except.ok ks2
      else if spk = ext.p2shScriptFor wos then Except.ok ks2
      else Except.error ⟨ErrCode.invalidParameter, "redeemScript/witnessScript does not match scriptPubKey"⟩
    else if ext.isP2WSH spk then
      if spk ≠ ext.p2wshScriptFor script then
        Except.error ⟨ErrCode.invalidParameter, "redeemScript/witnessScript does not match scriptPubKey"⟩
      else Except.ok ks2
    else Except.ok ks2))))

-- Coin recording and keystore resolution for one record, after the conflict
-- check has passed (lines 419-500).
def recordCoin (ext : Externals) (hasKeystore : Bool) (es : List (String × UV))
    (out : OutPoint) (spk : Script) (coins : CoinsMap) (ks : List Script) :
    (Except Err Unit) × CoinsMap × List Script :=
  match coinValueFor ext es with
  | Except.error e => (Except.error e, coins, ks)
  | Except.ok cv =>
    let coins1 := coinsInsert coins out ⟨⟨0, cv, spk, []⟩, 1, false⟩
    if hasKeystore && (ext.isP2SH spk || ext.isP2WSH spk) then
      match prevKeystorePart ext es spk ks with
      | Except.error e => (Except.error e, coins1, ks)
      | Except.ok ks2 => (Except.ok (), coins1, ks2)
    else (Except.ok (), coins1, ks)

-- One record of ParsePrevouts (lines 385-501).  The second and third
-- components are the state of the coin map and registered-script list when
-- the call returns or throws.
def parsePrevoutRec (ext : Externals) (hasKeystore : Bool) (p : UV)
    (coins : CoinsMap) (ks : List Script) : (Except Err Unit) × CoinsMap × List Script :=
  match p with
  | UV.obj es =>
    match prevParse ext es with
    | Except.error e => (Except.error e, coins, ks)
    | Except.ok (out, spk) =>
      match lookupCoin coins out with
      | some c =>
        if c.spent = false ∧ c.out.scriptPubKey ≠ spk then
          (Except.error ⟨ErrCode.deserializationError,
            "Previous output scriptPubKey mismatch:\n" ++ ext.scriptToAsm c.out.scriptPubKey ++
            "\nvs:\n" ++ ext.scriptToAsm spk⟩, coins, ks)
        else recordCoin ext hasKeystore es out spk coins ks
      | none => recordCoin ext hasKeystore es out spk coins ks
  | _ => (Except.error ⟨ErrCode.deserializationError,
      "expected object with \x7b\"txid\",\"vout\",\"scriptPubKey\"\x7d"⟩, coins, ks)

def parsePrevoutsLoop (ext : Externals) (hasKeystore : Bool) :
    List UV → CoinsMap → List Script → (Except Err Unit) × CoinsMap × List Script
  | [], coins, ks => (Except.ok (), coins, ks)
  | p :: rest, coins, ks =>
    match parsePrevoutRec ext hasKeystore p coins ks with
    | (Except.ok _, coins1, ks1) => parsePrevoutsLoop ext hasKeystore rest coins1 ks1
    | (Except.error e, coins1, ks1) => (Except.error e, coins1, ks1)

-- ParsePrevouts (lines 381-503).
def parsePrevouts (ext : Externals) (hasKeystore : Bool) (prevTxsUnival : UV)
    (coins : CoinsMap) (ks : List Script) : (Except Err Unit) × CoinsMap × List Script :=
  match prevTxsUnival with
  | UV.null => (Except.ok (), coins, ks)
  | UV.arr l => parsePrevoutsLoop ext hasKeystore l coins ks
  | _ => (Except.error ⟨ErrCode.typeError, "JSON value is not an array as expected"⟩, coins, ks)

-- std::map<int, std::string> insert-or-assign keeping keys sorted.
def mapInsert : List (Nat × String) → Nat → String → List (Nat × String)
  | [], k, v => [(k, v)]
  | (k0, v0) :: rest, k, v =>
    if k < k0 then (k, v) :: (k0, v0) :: rest
    else if k = k0 then (k, v) :: rest
    else (k0, v0) :: mapInsert rest k v

def mapLookup : List (Nat × String) → Nat → Option String
  | [], _ => none
  | (k0, v0) :: rest, k => if k0 = k then some v0 else mapLookup rest k

-- ValidateTransactionPeginInputs (lines 506-526).  The CHECK_NONFATAL on the
-- depth-check error message is modelled as an internal error.
def validateLoop (ext : Externals) (mtx : CMutableTransaction) :
    Nat → List CTxIn → List (Nat × String) → Bool → Except Err (List (Nat × String) × Bool)
  | _, [], errs, imm => Except.ok (errs, imm)
  | i, txin :: rest, errs, imm =>
    let w := (mtx.witness.getD i defaultTxInWitness).m_pegin_witness
    if txin.m_is_pegin &&
        (decide (mtx.witness.length ≤ i) ||
         (ext.isValidPeginWitness w ext.fedpegscripts txin.prevout false).isSome) then
      validateLoop ext mtx (i + 1) rest (mapInsert errs i "Peg-in input has invalid proof.") imm
    else
      if txin.m_is_pegin then
        match ext.isValidPeginWitness w ext.fedpegscripts txin.prevout true with
        | some e =>
          if e = "Needs more confirmations." then validateLoop ext mtx (i + 1) rest errs true
          else Except.error ⟨ErrCode.internalError, "Internal check failed: err == Needs more confirmations."⟩
        | none => validateLoop ext mtx (i + 1) rest errs imm
      else validateLoop ext mtx (i + 1) rest errs imm

def validateTransactionPeginInputs (ext : Externals) (mtx : CMutableTransaction) :
    Except Err (List (Nat × String) × Bool) :=
  validateLoop ext mtx 0 mtx.vin [] false

-- One entry of the per-input error array (lines 365-379).
structure SignErrEntry where
  txid : Uint256
  vout : Nat
  witness : List (List Nat)
  scriptSig : Script
  sequence : Nat
  message : String
  deriving DecidableEq, Repr

def txInErrorToJSON (txin : CTxIn) (txinwit : CTxInWitness) (msg : String) : SignErrEntry :=
  ⟨txin.prevout.hash, txin.prevout.n, txinwit.scriptWitness, txin.scriptSig, txin.nSequence, msg⟩

-- The JSON result object of signing, modelled as a record.
structure SignResult where
  hex : Option String
  complete : Option Bool
  errors : Option (List SignErrEntry)
  warning : Option String
  deriving DecidableEq, Repr

def emptySignResult : SignResult := ⟨none, none, none, none⟩

-- The error-array construction of SignTransactionResultToJSON (lines 543-550),
-- including the escalated "Missing amount" case and the .at range checks.
def buildErrEntries (ext : Externals) (mtx : CMutableTransaction) (coins : CoinsMap) :
    List (Nat × String) → Except Err (List SignErrEntry)
  | [] => Except.ok []
  | (i, msg) :: rest =>
    if msg = "Missing amount" then
      match mtx.vin.get? i with
      | none => Except.error ⟨ErrCode.internalError, "vector index out of range"⟩
      | some txin =>
        match lookupCoin coins txin.prevout with
        | none => Except.error ⟨ErrCode.internalError, "map key out of range"⟩
        | some c => Except.error ⟨ErrCode.typeError, "Missing amount for " ++ ext.txOutToString c.out⟩
    else
      match mtx.vin.get? i, mtx.witness.get? i with
      | some txin, some wit =>
        exBind (buildErrEntries ext mtx coins rest)
          (fun es => Except.ok (txInErrorToJSON txin wit msg :: es))
      | _, _ => Except.error ⟨ErrCode.internalError, "vector index out of range"⟩

-- SignTransactionResultToJSON (lines 540-563).
def signTransactionResultToJSON (ext : Externals) (mtx : CMutableTransaction) (complete : Bool)
    (coins : CoinsMap) (inputErrors : List (Nat × String)) (immature : Bool)
    (result : SignResult) : Except Err SignResult :=
  exBind (buildErrEntries ext mtx coins inputErrors) (fun vErrors =>
    let r1 := { result with hex := some (ext.encodeHexTx mtx), complete := some complete }
    let r2 :=
      if vErrors.isEmpty then r1
      else { r1 with errors := some (vErrors ++ (match result.errors with
                                                 | some old => old
                                                 | none => [])) }
    let r3 :=
      if immature then
        { r2 with warning := some "Possibly immature peg-in input(s) detected, signed anyways." }
      else r2
    Except.ok r3)

-- SignTransaction orchestration (lines 528-538); the external signer takes
-- the sighash type, the transaction and the accumulated per-input error map
-- and returns completeness, the (possibly signed) transaction, and the
-- updated error map.
def signTransactionOrch (ext : Externals)
    (signer : Int → CMutableTransaction → List (Nat × String) → Bool × CMutableTransaction × List (Nat × String))
    (mtx : CMutableTransaction) (coins : CoinsMap) (hashType : UV) (result : SignResult) :
    Except Err SignResult :=
  match ext.parseSighash hashType with
  | none => Except.error ⟨ErrCode.invalidParameter, "hashType is not a valid sighash parameter"⟩
  | some ht =>
    match validateTransactionPeginInputs ext mtx with
    | Except.error e => Except.error e
    | Except.ok (errs0, immature) =>
      match signer ht mtx errs0 with
      | (complete, mtx2, errs1) =>
        signTransactionResultToJSON ext mtx2 complete coins errs1 immature result

-- Concrete fixtures used to evaluate the development on closed inputs.

def ptxW : ParentTx := ⟨77, [⟨[1], 0⟩]⟩

def mbW : MerkleBlock := ⟨5, 9, 3, 0⟩

def extW : Externals where
  decodeTx := fun _ => some ptxW
  decodeProof := fun _ => some (mbW, 0)
  extractMatches := fun _ => (5, [77], [0])
  fedpegscripts := [([2], [3])]
  calculateContract := fun _ wp => wp
  p2wshScriptFor := fun s => s
  p2shScriptFor := fun s => 0 :: s
  isP2SH := fun _ => false
  isP2WSH := fun _ => false
  isWitnessProgram := fun _ => some (0, [9])
  getAmount := fun _ _ => some 5
  peggedAsset := 11
  parentPeggedAssetHex := "aa"
  parentGenesisHash := 13
  createPeginWitness := fun _ _ _ _ _ _ => [[1]]
  isValidPeginWitness := fun _ _ _ _ => none
  parentChainHasPow := true
  checkParentPow := fun _ _ => true
  checkSignedParent := fun _ => true
  policyAsset := 1
  parseHash := fun _ => some 3
  amountFromValue := fun v => match v with | UV.num n => some n | _ => none
  isHexStr := fun _ => true
  parseHexLenient := fun _ => [1]
  decodeDest := fun st => if st = "addr1" then some 1 else none
  scriptForDest := fun d => [d]
  isBlindDest := fun _ => false
  blindingKey := fun _ => []
  scriptToAsm := fun _ => "asm"
  parseSighash := fun _ => some 1
  encodeHexTx := fun _ => "beef"
  txOutToString := fun _ => "out"

def extC1 : Externals := { extW with decodeProof := fun _ => some (mbW, 1) }

def extC5 : Externals :=
  { extW with isValidPeginWitness := fun _ _ _ depth =>
      if depth then some "Needs more confirmations." else none }

def mtxEmpty : CMutableTransaction := ⟨[], [], 0, []⟩

def mtxFilled : CMutableTransaction := ⟨[⟨⟨0, 0⟩, [1], SEQUENCE_FINAL, false⟩], [], 0, []⟩

def mtxPegin : CMutableTransaction := ⟨[⟨⟨3, 0⟩, [], SEQUENCE_FINAL, true⟩], [], 0, [⟨[], [[1]]⟩]⟩

def signerW : Int → CMutableTransaction → List (Nat × String) →
    Bool × CMutableTransaction × List (Nat × String) :=
  fun _ m e => (true, m, e)

-- Helper lemmas.

theorem exBind_ok {α β : Type} (e : Except Err α) (f : α → Except Err β) (b : β) :
    exBind e f = Except.ok b ↔ ∃ a, e = Except.ok a ∧ f a = Except.ok b := by
  cases e with
  | error er => simp [exBind]
  | ok a => simp [exBind]

theorem findFirstIdx_none_iff {α : Type} (p : α → Bool) (l : List α) :
    findFirstIdx p l = none ↔ l.any p = false := by
  induction l with
  | nil => simp [findFirstIdx]
  | cons a rest ih =>
    by_cases h : p a
    · simp [findFirstIdx, h]
    · simp [findFirstIdx, h, ih]

theorem find?_append_none {α : Type} (p : α → Bool) (l₁ l₂ : List α)
    (h : ∀ x ∈ l₁, p x = false) : List.find? p (l₁ ++ l₂) = List.find? p l₂ := by
  induction l₁ with
  | nil => rfl
  | cons a rest ih =>
    have ha : p a = false := h a (by simp)
    rw [List.cons_append, List.find?_cons_of_neg _ (by simp [ha])]
    exact ih (fun x hx => h x (by simp [hx]))

/-- C2: the claim matcher derives the expected mainchain script for each
configuration, tries configurations in the supplied order, and returns the
index of the first output matching the first configuration that matches any
output, with the output count as the not-found sentinel. -/
theorem C2_claim_matcher_first_match (ext : Externals) (txn : ParentTx) (wp : Script)
    (feds : List (Script × Script)) :
    getPeginTxnOutputIndex ext txn wp feds = getPeginTxnOutputIndexSpec ext txn wp feds := by
  induction feds with
  | nil => rfl
  | cons cfg rest ih =>
    cases h : findFirstIdx (fun o => o.scriptPubKey == mainchainScriptFor ext cfg wp) txn.vout with
    | none =>
      have hany : txn.vout.any (fun o => o.scriptPubKey == mainchainScriptFor ext cfg wp) = false :=
        (findFirstIdx_none_iff _ _).mp h
      have hfind : List.find?
          (fun c => txn.vout.any fun o => o.scriptPubKey == mainchainScriptFor ext c wp) (cfg :: rest) =
          List.find? (fun c => txn.vout.any fun o => o.scriptPubKey == mainchainScriptFor ext c wp) rest :=
        List.find?_cons_of_neg _ (by simp [hany])
      rw [getPeginTxnOutputIndex, h, ih]
      rw [getPeginTxnOutputIndexSpec, getPeginTxnOutputIndexSpec, hfind]
    | some n =>
      have hany : txn.vout.any (fun o => o.scriptPubKey == mainchainScriptFor ext cfg wp) = true := by
        cases hc : txn.vout.any (fun o => o.scriptPubKey == mainchainScriptFor ext cfg wp) with
        | false => rw [(findFirstIdx_none_iff _ _).mpr hc] at h; cases h
        | true => rfl
      have hfind : List.find?
          (fun c => txn.vout.any fun o => o.scriptPubKey == mainchainScriptFor ext c wp) (cfg :: rest) =
          some cfg :=
        List.find?_cons_of_pos _ hany
      rw [getPeginTxnOutputIndex, h, getPeginTxnOutputIndexSpec, hfind]
      simp [h]

/-- C4: an input that already carries a non-empty scriptSig or a non-null
witness is rejected with an invalid-parameter error, independently of every
decoder and of the proof data, and the transaction is returned unmodified. -/
theorem C4_input_reuse_guard (ext : Externals) (mtx : CMutableTransaction) (idx : Nat)
    (claims : List Script) (txData proofData : List Nat)
    (h : (idx < mtx.vin.length ∧ (mtx.vin.getD idx defaultTxIn).scriptSig ≠ []) ∨
         (idx < mtx.witness.length ∧ witIsNull (mtx.witness.getD idx defaultTxInWitness) = false)) :
    createPegInInputInner ext mtx idx claims txData proofData =
      (Except.error ⟨ErrCode.invalidParameter,
        "Attempting to add a peg-in to an input that already has a scriptSig or witness"⟩, mtx) := by
  have hAF : alreadyFilled mtx idx = true := by
    unfold alreadyFilled
    rcases h with ⟨h1, h2⟩ | ⟨h1, h2⟩
    · have h2' : (mtx.vin.getD idx defaultTxIn).scriptSig.isEmpty = false := by
        cases hse : (mtx.vin.getD idx defaultTxIn).scriptSig.isEmpty with
        | false => rfl
        | true => exact absurd (List.isEmpty_iff.mp hse) h2
      rw [decide_eq_true h1, h2']
      rfl
    · rw [decide_eq_true h1, h2]
      simp
  unfold createPegInInputInner
  rw [hAF]
  rfl

/-- C4 witness at a concrete transaction whose input 0 has a scriptSig. -/
theorem C4_input_reuse_guard_witness :
    createPegInInputInner extW mtxFilled 0 [] [] [] =
      (Except.error ⟨ErrCode.invalidParameter,
        "Attempting to add a peg-in to an input that already has a scriptSig or witness"⟩, mtxFilled) :=
  C4_input_reuse_guard extW mtxFilled 0 [] [] [] (Or.inl ⟨by decide, by decide⟩)

/-- C1: once the parent transaction and proof decode, a proof buffer with
trailing bytes, a merkle-root mismatch from the extracted matches, or an
extracted hash list that is not exactly the parent transaction's own hash,
makes peg-in construction fail with an error, leaving the transaction's input
and witness sequences unmodified. -/
theorem C1_invalid_proof_rejected (ext : Externals) (mtx : CMutableTransaction) (idx : Nat)
    (claims : List Script) (txData proofData : List Nat) (ptx : ParentTx) (mb : MerkleBlock)
    (leftover : Nat)
    (hTx : ext.decodeTx txData = some ptx)
    (hProof : ext.decodeProof proofData = some (mb, leftover))
    (hBad : leftover ≠ 0 ∨ (ext.extractMatches mb).1 ≠ mb.hashMerkleRoot ∨
            (ext.extractMatches mb).2.1 ≠ [ptx.txHash]) :
    ∃ e : Err, createPegInInputInner ext mtx idx claims txData proofData = (Except.error e, mtx) := by
  cases hAF : alreadyFilled mtx idx with
  | true =>
    exact ⟨⟨ErrCode.invalidParameter,
      "Attempting to add a peg-in to an input that already has a scriptSig or witness"⟩,
      by unfold createPegInInputInner; rw [hAF]; rfl⟩
  | false =>
    unfold createPegInInputInner
    rw [hAF, hTx, hProof]
    by_cases hl : leftover ≠ 0
    · exact ⟨⟨ErrCode.invalidParameter, "Invalid tx out proof"⟩, by simp [hl]⟩
    · push_neg at hl
      by_cases hr : (ext.extractMatches mb).1 ≠ mb.hashMerkleRoot
      · exact ⟨⟨ErrCode.invalidParameter, "Invalid tx out proof"⟩, by simp [hl, hr]⟩
      · push_neg at hr
        have hh : (ext.extractMatches mb).2.1 ≠ [ptx.txHash] := by
          rcases hBad with h | h | h
          · exact absurd hl h
          · exact absurd hr h
          · exact h
        exact ⟨⟨ErrCode.invalidParameter, "The txoutproof must contain bitcoinTx and only bitcoinTx"⟩,
          by simp [hl, hr, hh]⟩

/-- C1 witness: a proof buffer decoding with one leftover byte is rejected and
the empty transaction is unchanged. -/
theorem C1_invalid_proof_rejected_witness :
    ∃ e : Err, createPegInInputInner extC1 mtxEmpty 0 [[1]] [] [] = (Except.error e, mtxEmpty) :=
  C1_invalid_proof_rejected extC1 mtxEmpty 0 [[1]] [] [] ptxW mbW 1 rfl rfl (Or.inl (by decide))

theorem lem_createPegIn_claims_congr (ext : Externals) (mtx : CMutableTransaction) (idx : Nat)
    (c₁ c₂ : List Script) (txData proofData : List Nat) (ptx : ParentTx)
    (hTx : ext.decodeTx txData = some ptx)
    (hsel : selectClaimScript ext ptx c₁ = selectClaimScript ext ptx c₂)
    (hsome : (selectClaimScript ext ptx c₁).isSome = true) :
    createPegInInputInner ext mtx idx c₁ txData proofData =
      createPegInInputInner ext mtx idx c₂ txData proofData := by
  cases hAF : alreadyFilled mtx idx with
  | true =>
    unfold createPegInInputInner
    rw [hAF]
    rfl
  | false =>
    unfold createPegInInputInner
    rw [hAF, hTx]
    cases hdp : ext.decodeProof proofData with
    | none => rfl
    | some pr =>
      obtain ⟨mb, leftover⟩ := pr
      by_cases hl : leftover ≠ 0
      · simp [hl]
      · push_neg at hl
        by_cases hr : (ext.extractMatches mb).1 ≠ mb.hashMerkleRoot
        · simp [hl, hr]
        · push_neg at hr
          by_cases hh : (ext.extractMatches mb).2.1 ≠ [ptx.txHash]
          · simp [hl, hr, hh]
          · push_neg at hh
            simp only [hl, hr, hh]
            rw [hsel] at hsome ⊢
            cases hc : selectClaimScript ext ptx c₂ with
            | none => rw [hc] at hsome; cases hsome
            | some ws => simp [hc]

/-- C3: with several claim scripts, the first one in the supplied iteration
order that matches some federation configuration and output is the one
selected, and construction proceeds exactly as if that script alone had been
supplied (the matched output index and witness script of the rest of
construction are those of the first-matching script). -/
theorem C3_first_claim_script_wins (ext : Externals) (mtx : CMutableTransaction) (idx : Nat)
    (l₁ l₂ : List Script) (s : Script) (txData proofData : List Nat) (ptx : ParentTx)
    (hTx : ext.decodeTx txData = some ptx)
    (hMiss : ∀ t ∈ l₁, getPeginTxnOutputIndex ext ptx t ext.fedpegscripts = ptx.vout.length)
    (hHit : getPeginTxnOutputIndex ext ptx s ext.fedpegscripts ≠ ptx.vout.length) :
    selectClaimScript ext ptx (l₁ ++ s :: l₂) = some s ∧
    createPegInInputInner ext mtx idx (l₁ ++ s :: l₂) txData proofData =
      createPegInInputInner ext mtx idx [s] txData proofData := by
  have hps : (getPeginTxnOutputIndex ext ptx s ext.fedpegscripts != ptx.vout.length) = true := by
    simp only [bne_iff_ne, ne_eq]
    exact hHit
  have hsel1 : selectClaimScript ext ptx (l₁ ++ s :: l₂) = some s := by
    unfold selectClaimScript
    rw [find?_append_none _ l₁ (s :: l₂) (fun t ht => by simp [hMiss t ht])]
    exact List.find?_cons_of_pos _ hps
  have hsel2 : selectClaimScript ext ptx [s] = some s := by
    unfold selectClaimScript
    exact List.find?_cons_of_pos _ hps
  refine ⟨hsel1, ?_⟩
  exact lem_createPegIn_claims_congr ext mtx idx _ _ txData proofData ptx hTx
    (hsel1.trans hsel2.symm) (by rw [hsel1]; rfl)

/-- C3 witness: a non-matching script followed by the matching script selects
the matching one and behaves like supplying the matching one alone. -/
theorem C3_first_claim_script_wins_witness :
    selectClaimScript extW ptxW [[9, 9], [1]] = some [1] ∧
    createPegInInputInner extW mtxEmpty 0 [[9, 9], [1]] [] [] =
      createPegInInputInner extW mtxEmpty 0 [[1]] [] [] :=
  C3_first_claim_script_wins extW mtxEmpty 0 [[9, 9]] [] [1] [] [] ptxW rfl
    (by decide) (by decide)

/-- C8: the default sequence number is the replaceability-signaling value
under RBF, one below final for a nonzero lock-time, and final otherwise; a
caller-supplied numeric sequence between 0 and final inclusive overrides the
default, and an out-of-range one is an invalid-parameter error. -/
theorem C8_sequence_defaults_and_override (rbf : Bool) (lock : Nat) (o : List (String × UV)) :
    computeSequence rbf lock o =
      match uvFind o "sequence" with
      | UV.num s =>
        if 0 ≤ s ∧ s ≤ (SEQUENCE_FINAL : Int) then Except.ok s.toNat
        else Except.error ⟨ErrCode.invalidParameter, "Invalid parameter, sequence number is out of range"⟩
      | _ => Except.ok (if rbf then MAX_BIP125_RBF_SEQUENCE
                        else if lock ≠ 0 then SEQUENCE_FINAL - 1 else SEQUENCE_FINAL) := by
  unfold computeSequence
  cases hv : uvFind o "sequence" with
  | num s =>
    dsimp only
    by_cases hs : s < 0 ∨ (SEQUENCE_FINAL : Int) < s
    · rw [if_pos hs, if_neg (by omega)]
    · rw [if_neg hs, if_pos (by omega)]
  | null => rfl
  | str s => rfl
  | boolean b => rfl
  | arr l => rfl
  | obj es => rfl

/-- C7: with the RBF flag set and at least one input, a successful
construction always signals opt-in replaceability (otherwise it is rejected);
with the flag unset, or without inputs, no such check applies and
construction can succeed. -/
theorem C7_rbf_flag_checked (ext : Externals) (ins outs lt ass : UV) (coll allow : Bool)
    (tx : CMutableTransaction) (pks : List (List Nat))
    (h : constructTransaction ext ins outs lt ass true coll allow = Except.ok (tx, pks))
    (hvin : tx.vin ≠ []) :
    signalsOptInRBF tx = true ∧
    (∃ tx0 pks0, constructTransaction extW
        (UV.arr [UV.obj [("txid", UV.str "aa"), ("vout", UV.num 0)]])
        (UV.obj []) UV.null UV.null false false true = Except.ok (tx0, pks0) ∧
        tx0.vin ≠ [] ∧ signalsOptInRBF tx0 = false) ∧
    (∃ tx1 pks1, constructTransaction extW UV.null (UV.obj []) UV.null UV.null true false true =
        Except.ok (tx1, pks1) ∧ tx1.vin = []) := by
  refine ⟨?_, ?_, ?_⟩
  · unfold constructTransaction at h
    by_cases ho : outs.isNull
    · rw [if_pos ho] at h; cases h
    · rw [if_neg ho] at h
      obtain ⟨a1, h1, h⟩ := (exBind_ok _ _ _).mp h
      obtain ⟨a2, h2, h⟩ := (exBind_ok _ _ _).mp h
      obtain ⟨a3, h3, h⟩ := (exBind_ok _ _ _).mp h
      obtain ⟨a4, h4, h⟩ := (exBind_ok _ _ _).mp h
      obtain ⟨a5, h5, h⟩ := (exBind_ok _ _ _).mp h
      obtain ⟨a6, h6, h⟩ := (exBind_ok _ _ _).mp h
      obtain ⟨a7, h7, h⟩ := (exBind_ok _ _ _).mp h
      dsimp only at h
      split at h <;> split at h
      all_goals rename_i hcond
      all_goals injection h
      all_goals rename_i h'
      all_goals
        (have htx := congrArg Prod.fst h'
         dsimp only at htx
         subst htx
         have hlen := List.length_pos.mpr hvin
         simp at hcond
         exact hcond (by simpa using hlen))
  · exact ⟨⟨[⟨⟨3, 0⟩, [], SEQUENCE_FINAL, false⟩], [], 0, []⟩, [], rfl, by decide, rfl⟩
  · exact ⟨⟨[], [], 0, []⟩, [], rfl, rfl⟩

/-- C7 witness: a concrete RBF-flagged construction that succeeds with an
explicitly replaceable sequence number. -/
theorem C7_rbf_flag_checked_witness :
    signalsOptInRBF ⟨[⟨⟨3, 0⟩, [], 0, false⟩], [], 0, []⟩ = true ∧
    (∃ tx0 pks0, constructTransaction extW
        (UV.arr [UV.obj [("txid", UV.str "aa"), ("vout", UV.num 0)]])
        (UV.obj []) UV.null UV.null false false true = Except.ok (tx0, pks0) ∧
        tx0.vin ≠ [] ∧ signalsOptInRBF tx0 = false) ∧
    (∃ tx1 pks1, constructTransaction extW UV.null (UV.obj []) UV.null UV.null true false true =
        Except.ok (tx1, pks1) ∧ tx1.vin = []) :=
  C7_rbf_flag_checked extW
    (UV.arr [UV.obj [("txid", UV.str "aa"), ("vout", UV.num 0), ("sequence", UV.num 0)]])
    (UV.obj []) UV.null UV.null false true
    ⟨[⟨⟨3, 0⟩, [], 0, false⟩], [], 0, []⟩ [] rfl (by decide)

theorem uvFind_append_notin (l₁ rest : List (String × UV)) (k : String)
    (h : ∀ p ∈ l₁, p.1 ≠ k) : uvFind (l₁ ++ rest) k = uvFind rest k := by
  induction l₁ with
  | nil => rfl
  | cons q l ih =>
    obtain ⟨qk, qv⟩ := q
    have hq : qk ≠ k := h (qk, qv) (by simp)
    rw [List.cons_append]
    show (if qk = k then qv else uvFind (l ++ rest) k) = uvFind rest k
    rw [if_neg hq]
    exact ih (fun p hp => h p (by simp [hp]))

theorem uvFind_middle_skip (l₁ l₂ : List (String × UV)) (v : UV) (k : String) (hk : k ≠ "fee") :
    uvFind (l₁ ++ ("fee", v) :: l₂) k = uvFind (l₁ ++ l₂) k := by
  induction l₁ with
  | nil =>
    show (if "fee" = k then v else uvFind l₂ k) = uvFind l₂ k
    rw [if_neg (fun hh => hk hh.symm)]
  | cons q l ih =>
    obtain ⟨qk, qv⟩ := q
    rw [List.cons_append, List.cons_append]
    show (if qk = k then qv else uvFind (l ++ ("fee", v) :: l₂) k) =
      (if qk = k then qv else uvFind (l ++ l₂) k)
    rw [ih]

theorem outStep_entries_congr (ext : Externals) (coll : Bool) (ao : Option (List (String × UV)))
    (E N : List (String × UV)) (s : OState) (name : String)
    (hE : uvFind E name = uvFind N name) :
    outStep ext coll ao E s name = outStep ext coll ao N s name := by
  unfold outStep
  rw [hE]

theorem outStep_feeOut (ext : Externals) (coll : Bool) (ao : Option (List (String × UV)))
    (E : List (String × UV)) (name : String) (h : name ≠ "fee") (s : OState) (f : CTxOut) :
    outStep ext coll ao E { s with feeOut := f } name =
      Except.map (fun s' => { s' with feeOut := f }) (outStep ext coll ao E s name) := by
  obtain ⟨sv, sf, sd, sh, sp⟩ := s
  unfold outStep
  cases ha : assetForE ext ao name with
  | error e => rfl
  | ok asset =>
    dsimp only [exBind]
    by_cases h1 : name = "data"
    · rw [if_pos h1, if_pos h1]
      cases sh with
      | true => rfl
      | false =>
        cases hp : parseHexStrE ext (uvFind E name).getValStr "Data" with
        | error e2 => rfl
        | ok d => rfl
    · rw [if_neg h1, if_neg h1]
      by_cases h2 : name = "vdata"
      · rw [if_pos h2, if_pos h2]
        cases hm : uvFind E name with
        | arr elems =>
          dsimp only
          cases hv : vdataBytes ext elems with
          | error e2 => rfl
          | ok ds => rfl
        | null => rfl
        | str st => rfl
        | num n => rfl
        | boolean b => rfl
        | obj es => rfl
      · rw [if_neg h2, if_neg h2]
        rw [if_neg h, if_neg h]
        by_cases h3 : name = "burn"
        · rw [if_pos h3, if_pos h3]
          cases hm : amountFromValueE ext (uvFind E name) with
          | error e2 => rfl
          | ok am => rfl
        · rw [if_neg h3, if_neg h3]
          cases hd : ext.decodeDest name with
          | none => rfl
          | some dest =>
            dsimp only
            by_cases hc : List.contains sd dest
            · rw [if_pos hc, if_pos hc]
              rfl
            · rw [if_neg hc, if_neg hc]
              cases hm : amountFromValueE ext (uvFind E name) with
              | error e2 => rfl
              | ok am => rfl

theorem outFold_append (ext : Externals) (coll : Bool) (ao : Option (List (String × UV)))
    (E : List (String × UV)) (K₁ K₂ : List String) (s : OState) :
    outFold ext coll ao E (K₁ ++ K₂) s =
      exBind (outFold ext coll ao E K₁ s) (outFold ext coll ao E K₂) := by
  induction K₁ generalizing s with
  | nil => rfl
  | cons k K ih =>
    rw [List.cons_append]
    show exBind (outStep ext coll ao E s k) (outFold ext coll ao E (K ++ K₂)) =
      exBind (exBind (outStep ext coll ao E s k) (outFold ext coll ao E K))
        (outFold ext coll ao E K₂)
    cases hs : outStep ext coll ao E s k with
    | error e => rfl
    | ok s1 =>
      dsimp only [exBind]
      exact ih s1

theorem outFold_entries_congr (ext : Externals) (coll : Bool) (ao : Option (List (String × UV)))
    (E N : List (String × UV)) (K : List String) (s : OState)
    (hK : ∀ k ∈ K, uvFind E k = uvFind N k) :
    outFold ext coll ao E K s = outFold ext coll ao N K s := by
  induction K generalizing s with
  | nil => rfl
  | cons k K ih =>
    show exBind (outStep ext coll ao E s k) (outFold ext coll ao E K) =
      exBind (outStep ext coll ao N s k) (outFold ext coll ao N K)
    rw [outStep_entries_congr ext coll ao E N s k (hK k (by simp))]
    cases hs : outStep ext coll ao N s k with
    | error e => rfl
    | ok s1 =>
      dsimp only [exBind]
      exact ih s1 (fun k' hk' => hK k' (by simp [hk']))

theorem outFold_feeOut (ext : Externals) (coll : Bool) (ao : Option (List (String × UV)))
    (E : List (String × UV)) (K : List String) (s : OState) (f : CTxOut)
    (hK : ∀ k ∈ K, k ≠ "fee") :
    outFold ext coll ao E K { s with feeOut := f } =
      Except.map (fun s' => { s' with feeOut := f }) (outFold ext coll ao E K s) := by
  induction K generalizing s with
  | nil => rfl
  | cons k K ih =>
    rw [show outFold ext coll ao E (k :: K) { s with feeOut := f } =
        exBind (outStep ext coll ao E { s with feeOut := f } k) (outFold ext coll ao E K) from rfl]
    rw [show outFold ext coll ao E (k :: K) s =
        exBind (outStep ext coll ao E s k) (outFold ext coll ao E K) from rfl]
    rw [outStep_feeOut ext coll ao E k (hK k (by simp)) s f]
    cases hs : outStep ext coll ao E s k with
    | error e => rfl
    | ok s1 =>
      dsimp only [Except.map, exBind]
      exact ih s1 (fun k' hk' => hK k' (by simp [hk']))

theorem exBind_map_comm {α β : Type} (e : Except Err α) (f : α → Except Err β) (g : β → β) :
    Except.map g (exBind e f) = exBind e (fun x => Except.map g (f x)) := by
  cases e <;> rfl

theorem outStep_fee (ext : Externals) (coll : Bool) (ao : Option (List (String × UV)))
    (E : List (String × UV)) (v : UV) (a : Int) (afee : Nat) (s : OState)
    (hfind : uvFind E "fee" = v) (hamt : ext.amountFromValue v = some a)
    (hasset : assetForE ext ao "fee" = Except.ok afee) :
    outStep ext coll ao E s "fee" =
      Except.ok { s with feeOut := ⟨afee, ConfValue.explicit a, [], []⟩ } := by
  unfold outStep
  rw [hasset]
  dsimp only [exBind]
  rw [if_neg (by decide), if_neg (by decide), if_pos rfl, hfind]
  unfold amountFromValueE
  rw [hamt]

theorem processOutputs_fee_split (ext : Externals) (coll : Bool)
    (ao : Option (List (String × UV))) (l₁ l₂ : List (String × UV)) (v : UV) (a : Int) (afee : Nat)
    (h1 : "fee" ∉ (l₁ ++ l₂).map Prod.fst)
    (h2 : ext.amountFromValue v = some a)
    (h4 : assetForE ext ao "fee" = Except.ok afee) :
    processOutputs ext coll ao (l₁ ++ ("fee", v) :: l₂) =
      Except.map (fun s' => { s' with feeOut := ⟨afee, ConfValue.explicit a, [], []⟩ })
        (processOutputs ext coll ao (l₁ ++ l₂)) := by
  have hK1 : ∀ k ∈ l₁.map Prod.fst, k ≠ "fee" := by
    intro k hk hkeq
    subst hkeq
    exact h1 (by simp only [List.map_append, List.mem_append]; exact Or.inl hk)
  have hK2 : ∀ k ∈ l₂.map Prod.fst, k ≠ "fee" := by
    intro k hk hkeq
    subst hkeq
    exact h1 (by simp only [List.map_append, List.mem_append]; exact Or.inr hk)
  have hEN : ∀ k, k ≠ "fee" →
      uvFind (l₁ ++ ("fee", v) :: l₂) k = uvFind (l₁ ++ l₂) k :=
    fun k hk => uvFind_middle_skip l₁ l₂ v k hk
  have hfee : uvFind (l₁ ++ ("fee", v) :: l₂) "fee" = v := by
    rw [uvFind_append_notin l₁ _ "fee"
      (fun p hp => hK1 p.1 (List.mem_map_of_mem Prod.fst hp))]
    show (if "fee" = "fee" then v else uvFind l₂ "fee") = v
    rw [if_pos rfl]
  unfold processOutputs
  rw [show (l₁ ++ ("fee", v) :: l₂).map Prod.fst =
      l₁.map Prod.fst ++ "fee" :: l₂.map Prod.fst by simp]
  rw [show (l₁ ++ l₂).map Prod.fst = l₁.map Prod.fst ++ l₂.map Prod.fst by simp]
  rw [outFold_append, outFold_append]
  rw [outFold_entries_congr ext coll ao _ (l₁ ++ l₂) (l₁.map Prod.fst) initialOState
    (fun k hk => hEN k (hK1 k hk))]
  rw [exBind_map_comm]
  congr 1
  funext s
  show exBind (outStep ext coll ao (l₁ ++ ("fee", v) :: l₂) s "fee")
      (outFold ext coll ao (l₁ ++ ("fee", v) :: l₂) (l₂.map Prod.fst)) = _
  rw [outStep_fee ext coll ao _ v a afee s hfee h2 h4]
  dsimp only [exBind]
  rw [outFold_feeOut ext coll ao _ (l₂.map Prod.fst) s _ hK2]
  rw [outFold_entries_congr ext coll ao _ (l₁ ++ l₂) (l₂.map Prod.fst) s
    (fun k hk => hEN k (hK2 k hk))]

/-- C6: a fee entry in the output specification yields an output appended
strictly after all other outputs regardless of the entry's position, and no
output at all when the fee amount is exactly zero; the remaining outputs are
those of the fee-less specification processed in order, and inputs, lock-time
and witnesses are unaffected. -/
theorem C6_fee_output_last (ext : Externals) (ins lt ass : UV) (rbf coll allow : Bool)
    (l₁ l₂ : List (String × UV)) (v : UV) (a : Int) (afee : Nat)
    (ao : Option (List (String × UV))) (tx : CMutableTransaction) (pks : List (List Nat))
    (h1 : "fee" ∉ (l₁ ++ l₂).map Prod.fst)
    (h2 : ext.amountFromValue v = some a)
    (h3 : parseAssets ass = Except.ok ao)
    (h4 : assetForE ext ao "fee" = Except.ok afee)
    (h5 : constructTransaction ext ins (UV.obj (l₁ ++ ("fee", v) :: l₂)) lt ass rbf coll allow =
      Except.ok (tx, pks)) :
    ∃ tx' pks',
      constructTransaction ext ins (UV.obj (l₁ ++ l₂)) lt ass rbf coll allow =
        Except.ok (tx', pks') ∧
      tx.vout = tx'.vout ++ (if 0 < a then [⟨afee, ConfValue.explicit a, [], []⟩] else []) ∧
      tx.vin = tx'.vin ∧ tx.nLockTime = tx'.nLockTime ∧ tx.witness = tx'.witness := by
  unfold constructTransaction at h5 ⊢
  rw [if_neg (by simp [UV.isNull])] at h5
  rw [if_neg (by simp [UV.isNull])]
  obtain ⟨a1, hin, h5⟩ := (exBind_ok _ _ _).mp h5
  obtain ⟨a2, hrep, h5⟩ := (exBind_ok _ _ _).mp h5
  obtain ⟨a3, hlt, h5⟩ := (exBind_ok _ _ _).mp h5
  obtain ⟨a4, has, h5⟩ := (exBind_ok _ _ _).mp h5
  obtain ⟨a5, hpi, h5⟩ := (exBind_ok _ _ _).mp h5
  obtain ⟨a6, hent, h5⟩ := (exBind_ok _ _ _).mp h5
  obtain ⟨a7, hout, h5⟩ := (exBind_ok _ _ _).mp h5
  -- the outputs representation is the object form
  rw [show (match UV.obj (l₁ ++ ("fee", v) :: l₂) with
            | UV.obj es => Except.ok (Sum.inl es)
            | UV.arr l => Except.ok (Sum.inr l)
            | _ => (Except.error ⟨ErrCode.typeError, "JSON value is not an array as expected"⟩ :
                Except Err (List (String × UV) ⊕ List UV))) =
      Except.ok (Sum.inl (l₁ ++ ("fee", v) :: l₂)) from rfl] at hrep
  injection hrep with hrep
  subst hrep
  rw [show (match Sum.inl (l₁ ++ ("fee", v) :: l₂) with
            | Sum.inl es => Except.ok es
            | Sum.inr l => translateOutputs l) =
      Except.ok (l₁ ++ ("fee", v) :: l₂) from rfl] at hent
  injection hent with hent
  subst hent
  -- assets agree with h3
  rw [h3] at has
  injection has with has
  subst has
  -- split the fee out of the output processing
  rw [processOutputs_fee_split ext coll ao l₁ l₂ v a afee h1 h2 h4] at hout
  cases hN : processOutputs ext coll ao (l₁ ++ l₂) with
  | error e => rw [hN] at hout; cases hout
  | ok sN =>
    rw [hN] at hout
    dsimp only [Except.map] at hout
    injection hout with hout
    subst hout
    -- the fee-less fold leaves the fee slot at its default
    have hdef : sN.feeOut = defaultTxOut := by
      have hKN : ∀ k ∈ (l₁ ++ l₂).map Prod.fst, k ≠ "fee" := by
        intro k hk hkeq
        subst hkeq
        exact h1 hk
      have hself := outFold_feeOut ext coll ao (l₁ ++ l₂) ((l₁ ++ l₂).map Prod.fst)
        initialOState defaultTxOut hKN
      rw [show ({ initialOState with feeOut := defaultTxOut } : OState) = initialOState from rfl]
        at hself
      have hself2 : processOutputs ext coll ao (l₁ ++ l₂) =
          Except.map (fun s' => { s' with feeOut := defaultTxOut })
            (processOutputs ext coll ao (l₁ ++ l₂)) := hself
      rw [hN] at hself2
      dsimp only [Except.map] at hself2
      injection hself2 with hself2
      rw [hself2]
    have hfcN : feeCondition sN.feeOut = false := by rw [hdef]; rfl
    dsimp only at h5
    have hfc : feeCondition (⟨afee, ConfValue.explicit a, [], []⟩ : CTxOut) = decide (0 < a) := by
      dsimp only [feeCondition, ConfValue.isNull, ConfValue.getAmount]
      rfl
    rw [hfc] at h5
    by_cases h0 : (0 : Int) < a
    · rw [decide_eq_true h0] at h5
      simp only [eq_self_iff_true, if_true] at h5
      split at h5
      · exact absurd h5 (by simp)
      · rename_i hcond
        injection h5 with h5
        have htx := congrArg Prod.fst h5
        dsimp only at htx
        subst htx
        refine ⟨{ vin := a5.vin, vout := sN.vout, nLockTime := a5.nLockTime, witness := a5.witness },
          sN.pubkeys, ?_, ?_, rfl, rfl, rfl⟩
        · rw [(exBind_ok _ _ _)]
          refine ⟨a1, hin, ?_⟩
          rw [show (match UV.obj (l₁ ++ l₂) with
                    | UV.obj es => Except.ok (Sum.inl es)
                    | UV.arr l => Except.ok (Sum.inr l)
                    | _ => (Except.error ⟨ErrCode.typeError, "JSON value is not an array as expected"⟩ :
                        Except Err (List (String × UV) ⊕ List UV))) =
              Except.ok (Sum.inl (l₁ ++ l₂)) from rfl]
          rw [(exBind_ok _ _ _)]
          refine ⟨Sum.inl (l₁ ++ l₂), rfl, ?_⟩
          rw [(exBind_ok _ _ _)]
          refine ⟨a3, hlt, ?_⟩
          rw [(exBind_ok _ _ _)]
          refine ⟨ao, h3, ?_⟩
          rw [(exBind_ok _ _ _)]
          refine ⟨a5, hpi, ?_⟩
          rw [(exBind_ok _ _ _)]
          refine ⟨l₁ ++ l₂, rfl, ?_⟩
          rw [(exBind_ok _ _ _)]
          refine ⟨sN, hN, ?_⟩
          dsimp only
          rw [hfcN]
          simp only [Bool.false_eq_true, if_false]
          split
          · rename_i hcc
            exact absurd hcc hcond
          · rfl
        · rw [if_pos h0]
    · rw [decide_eq_false h0] at h5
      simp only [Bool.false_eq_true, if_false] at h5
      split at h5
      · exact absurd h5 (by simp)
      · rename_i hcond
        injection h5 with h5
        have htx := congrArg Prod.fst h5
        dsimp only at htx
        subst htx
        refine ⟨{ vin := a5.vin, vout := sN.vout, nLockTime := a5.nLockTime, witness := a5.witness },
          sN.pubkeys, ?_, ?_, rfl, rfl, rfl⟩
        · rw [(exBind_ok _ _ _)]
          refine ⟨a1, hin, ?_⟩
          rw [show (match UV.obj (l₁ ++ l₂) with
                    | UV.obj es => Except.ok (Sum.inl es)
                    | UV.arr l => Except.ok (Sum.inr l)
                    | _ => (Except.error ⟨ErrCode.typeError, "JSON value is not an array as expected"⟩ :
                        Except Err (List (String × UV) ⊕ List UV))) =
              Except.ok (Sum.inl (l₁ ++ l₂)) from rfl]
          rw [(exBind_ok _ _ _)]
          refine ⟨Sum.inl (l₁ ++ l₂), rfl, ?_⟩
          rw [(exBind_ok _ _ _)]
          refine ⟨a3, hlt, ?_⟩
          rw [(exBind_ok _ _ _)]
          refine ⟨ao, h3, ?_⟩
          rw [(exBind_ok _ _ _)]
          refine ⟨a5, hpi, ?_⟩
          rw [(exBind_ok _ _ _)]
          refine ⟨l₁ ++ l₂, rfl, ?_⟩
          rw [(exBind_ok _ _ _)]
          refine ⟨sN, hN, ?_⟩
          dsimp only
          rw [hfcN]
          simp only [Bool.false_eq_true, if_false]
          split
          · rename_i hcc
            exact absurd hcc hcond
          · rfl
        · rw [if_neg h0]
          simp

/-- C6 witness: a fee entry listed before an address entry still lands last,
and the fee-less construction carries the same non-fee outputs. -/
theorem C6_fee_output_last_witness :
    ∃ tx' pks',
      constructTransaction extW UV.null (UV.obj ([] ++ [("addr1", UV.num 2)])) UV.null UV.null
          false false true = Except.ok (tx', pks') ∧
      (⟨[], [⟨1, ConfValue.explicit 2, [1], []⟩, ⟨1, ConfValue.explicit 3, [], []⟩], 0, []⟩ :
          CMutableTransaction).vout =
        tx'.vout ++ (if (0 : Int) < 3 then [⟨1, ConfValue.explicit 3, [], []⟩] else []) ∧
      (⟨[], [⟨1, ConfValue.explicit 2, [1], []⟩, ⟨1, ConfValue.explicit 3, [], []⟩], 0, []⟩ :
          CMutableTransaction).vin = tx'.vin ∧
      (⟨[], [⟨1, ConfValue.explicit 2, [1], []⟩, ⟨1, ConfValue.explicit 3, [], []⟩], 0, []⟩ :
          CMutableTransaction).nLockTime = tx'.nLockTime ∧
      (⟨[], [⟨1, ConfValue.explicit 2, [1], []⟩, ⟨1, ConfValue.explicit 3, [], []⟩], 0, []⟩ :
          CMutableTransaction).witness = tx'.witness :=
  C6_fee_output_last extW UV.null UV.null UV.null false false true [] [("addr1", UV.num 2)]
    (UV.num 3) 3 1 none
    ⟨[], [⟨1, ConfValue.explicit 2, [1], []⟩, ⟨1, ConfValue.explicit 3, [], []⟩], 0, []⟩ []
    (by decide) rfl rfl rfl rfl

theorem growForIndex_lt_length {α : Type} (l : List α) (idx : Nat) (d : α) :
    idx < (growForIndex l idx d).length := by
  unfold growForIndex
  split
  · rename_i hle
    rw [List.length_append, List.length_replicate]
    omega
  · rename_i hgt
    omega

theorem getD_set_self {α : Type} (l : List α) (i : Nat) (a d : α) (h : i < l.length) :
    (l.set i a).getD i d = a := by
  induction l generalizing i with
  | nil => simp at h
  | cons x xs ih =>
    cases i with
    | zero => rfl
    | succ n => exact ih n (by simpa using h)

theorem mem_growForIndex {α : Type} (l : List α) (idx : Nat) (d : α) (x : α)
    (hx : x ∈ growForIndex l idx d) : x ∈ l ∨ x = d := by
  unfold growForIndex at hx
  split at hx
  · rcases List.mem_append.mp hx with h | h
    · exact Or.inl h
    · exact Or.inr (List.eq_of_mem_replicate h)
  · exact Or.inl hx

theorem lem_createPegIn_ok_shape (ext : Externals) (mtx : CMutableTransaction) (idx : Nat)
    (c : List Script) (d p : List Nat) (r : ParentTx × MerkleBlock) (mtx' : CMutableTransaction)
    (h : createPegInInputInner ext mtx idx c d p = (Except.ok r, mtx')) :
    ∃ op pw,
      mtx'.vin = (growForIndex mtx.vin idx defaultTxIn).set idx ⟨op, [], SEQUENCE_FINAL, true⟩ ∧
      mtx'.witness = (growForIndex mtx.witness idx defaultTxInWitness).set idx ⟨[], pw⟩ ∧
      mtx'.vout = mtx.vout ∧ mtx'.nLockTime = mtx.nLockTime := by
  unfold createPegInInputInner at h
  dsimp only at h
  repeat' split at h
  all_goals try (have hfst := congrArg Prod.fst h; simp at hfst)
  unfold pegInBody at h
  dsimp only at h
  repeat' split at h
  all_goals try (have hfst := congrArg Prod.fst h; simp at hfst)
  have h2 := congrArg Prod.snd h
  dsimp only at h2
  rw [List.set_set] at h2
  subst h2
  exact ⟨_, _, rfl, rfl, rfl, rfl⟩

theorem lem_processOneInput_pegin_final (ext : Externals) (allow rbf : Bool) (inp : UV)
    (idx : Nat) (mtx mtx1 : CMutableTransaction)
    (h : processOneInput ext allow rbf inp idx mtx = Except.ok mtx1)
    (hinv : ∀ x ∈ mtx.vin, x.m_is_pegin = true → x.nSequence = SEQUENCE_FINAL) :
    ∀ x ∈ mtx1.vin, x.m_is_pegin = true → x.nSequence = SEQUENCE_FINAL := by
  unfold processOneInput at h
  cases inp
  case obj o =>
    dsimp only at h
    obtain ⟨txid, hx, h⟩ := (exBind_ok _ _ _).mp h
    split at h
    case h_2 => cases h
    rename_i v hveq
    split at h
    · cases h
    · obtain ⟨seq, hs, h⟩ := (exBind_ok _ _ _).mp h
      have hinv1 : ∀ x ∈ mtx.vin ++ [⟨⟨txid, v.toNat⟩, [], seq, false⟩],
          x.m_is_pegin = true → x.nSequence = SEQUENCE_FINAL := by
        intro x hx1 hpx
        rcases List.mem_append.mp hx1 with hm | hm
        · exact hinv x hm hpx
        · rw [List.mem_singleton.mp hm] at hpx
          cases hpx
      split at h
      · -- peg-in branch
        split at h
        case h_2 => cases h
        split at h
        · cases h
        · split at h
          case h_2 => cases h
          split at h
          case h_1 e heq => cases h
          case h_2 ptx mb mtx2 heq =>
            obtain ⟨op, pw, hvin, -, -, -⟩ :=
              lem_createPegIn_ok_shape ext _ idx _ _ _ _ _ heq
            have hmtx2 : mtx2.vin = _ := hvin
            have hfin : ∀ x ∈ mtx2.vin, x.m_is_pegin = true → x.nSequence = SEQUENCE_FINAL := by
              intro x hx2 hpx
              rw [hmtx2] at hx2
              rcases List.mem_or_eq_of_mem_set hx2 with hm | hm
              · rcases mem_growForIndex _ _ _ _ hm with hm2 | hm2
                · exact hinv1 x hm2 hpx
                · rw [hm2] at hpx; cases hpx
              · rw [hm]
            split at h
            · split at h
              · injection h with h; subst h; exact hfin
              · cases h
            · split at h
              · injection h with h; subst h; exact hfin
              · cases h
      · split at h
        · split at h
          · cases h
          · cases h
        · injection h with h
          subst h
          exact hinv1
  all_goals simp at h

theorem lem_processInputs_pegin_final (ext : Externals) (allow rbf : Bool) (l : List UV)
    (k : Nat) (mtx mtx' : CMutableTransaction)
    (h : processInputs ext allow rbf l k mtx = Except.ok mtx')
    (hinv : ∀ x ∈ mtx.vin, x.m_is_pegin = true → x.nSequence = SEQUENCE_FINAL) :
    ∀ x ∈ mtx'.vin, x.m_is_pegin = true → x.nSequence = SEQUENCE_FINAL := by
  induction l generalizing k mtx with
  | nil =>
    injection h with h
    subst h
    exact hinv
  | cons inp rest ih =>
    obtain ⟨m1, h1, h⟩ := (exBind_ok _ _ _).mp h
    exact ih (k + 1) m1 h (lem_processOneInput_pegin_final ext allow rbf inp k mtx m1 h1 hinv)

/-- C10: a successfully populated peg-in input always carries the final
sequence number (and the peg-in flag), overriding whatever sequence the
constructor computed; consequently an RBF-flagged construction whose inputs
are all peg-ins can never pass the opt-in replaceability check. -/
theorem C10_pegin_sequence_final :
    (∀ (ext : Externals) (mtx : CMutableTransaction) (idx : Nat) (claims : List Script)
       (txData proofData : List Nat) (r : ParentTx × MerkleBlock) (mtx' : CMutableTransaction),
       createPegInInputInner ext mtx idx claims txData proofData = (Except.ok r, mtx') →
       (mtx'.vin.getD idx defaultTxIn).nSequence = SEQUENCE_FINAL ∧
       (mtx'.vin.getD idx defaultTxIn).m_is_pegin = true) ∧
    (∀ (ext : Externals) (ins outs lt ass : UV) (coll allow : Bool)
       (tx : CMutableTransaction) (pks : List (List Nat)),
       constructTransaction ext ins outs lt ass true coll allow = Except.ok (tx, pks) →
       tx.vin ≠ [] → (∀ x ∈ tx.vin, x.m_is_pegin = true) → False) := by
  constructor
  · intro ext mtx idx claims txData proofData r mtx' h
    obtain ⟨op, pw, hv, -, -, -⟩ := lem_createPegIn_ok_shape ext mtx idx claims txData proofData r mtx' h
    rw [hv, getD_set_self _ _ _ _ (growForIndex_lt_length mtx.vin idx defaultTxIn)]
    exact ⟨rfl, rfl⟩
  · intro ext ins outs lt ass coll allow tx pks h hvin hall
    unfold constructTransaction at h
    by_cases ho : outs.isNull
    · rw [if_pos ho] at h; cases h
    · rw [if_neg ho] at h
      obtain ⟨a1, h1, h⟩ := (exBind_ok _ _ _).mp h
      obtain ⟨a2, h2, h⟩ := (exBind_ok _ _ _).mp h
      obtain ⟨a3, h3, h⟩ := (exBind_ok _ _ _).mp h
      obtain ⟨a4, h4, h⟩ := (exBind_ok _ _ _).mp h
      obtain ⟨a5, h5, h⟩ := (exBind_ok _ _ _).mp h
      obtain ⟨a6, h6, h⟩ := (exBind_ok _ _ _).mp h
      obtain ⟨a7, h7, h⟩ := (exBind_ok _ _ _).mp h
      have hinv5 := lem_processInputs_pegin_final ext allow true a1 0 _ a5 h5 (by intro x hx; cases hx)
      dsimp only at h
      split at h <;> split at h
      all_goals rename_i hcond
      all_goals injection h
      all_goals rename_i h'
      all_goals
        (have htx := congrArg Prod.fst h'
         dsimp only at htx
         subst htx
         have hlen := List.length_pos.mpr hvin
         simp at hcond
         have hsig := hcond (by simpa using hlen)
         dsimp only [signalsOptInRBF] at hsig
         obtain ⟨x, hxm, hxs⟩ := List.any_eq_true.mp hsig
         have hfin := hinv5 x (by simpa using hxm) (hall x (by simpa using hxm))
         rw [hfin] at hxs
         exact absurd (of_decide_eq_true hxs) (by norm_num [SEQUENCE_FINAL]))

/-- C10 witness: a concrete successful peg-in construction leaves the input
with the final sequence number and the peg-in flag. -/
theorem C10_pegin_sequence_final_witness :
    createPegInInputInner extW mtxEmpty 0 [[1]] [] [] =
      (Except.ok (ptxW, mbW),
        ⟨[⟨⟨77, 0⟩, [], SEQUENCE_FINAL, true⟩], [], 0, [⟨[], [[1]]⟩]⟩) ∧
    (((⟨[⟨⟨77, 0⟩, [], SEQUENCE_FINAL, true⟩], [], 0, [⟨[], [[1]]⟩]⟩ :
        CMutableTransaction).vin.getD 0 defaultTxIn).nSequence = SEQUENCE_FINAL ∧
     ((⟨[⟨⟨77, 0⟩, [], SEQUENCE_FINAL, true⟩], [], 0, [⟨[], [[1]]⟩]⟩ :
        CMutableTransaction).vin.getD 0 defaultTxIn).m_is_pegin = true) :=
  ⟨rfl, C10_pegin_sequence_final.1 extW mtxEmpty 0 [[1]] [] [] (ptxW, mbW)
    ⟨[⟨⟨77, 0⟩, [], SEQUENCE_FINAL, true⟩], [], 0, [⟨[], [[1]]⟩]⟩ rfl⟩

theorem lookup_coinsInsert_self (m : CoinsMap) (k : OutPoint) (c : Coin) :
    lookupCoin (coinsInsert m k c) k = some c := by
  induction m with
  | nil => simp [coinsInsert, lookupCoin]
  | cons p rest ih =>
    obtain ⟨o, c0⟩ := p
    by_cases ho : o = k
    · subst ho
      simp [coinsInsert, lookupCoin]
    · unfold coinsInsert
      rw [if_neg ho]
      unfold lookupCoin
      rw [if_neg ho]
      exact ih

/-- C9: a previous-output record for an outpoint already holding an unspent
coin with a different script is rejected with an error naming both scripts in
disassembled form and leaves the coin map untouched; in every other case the
coin for that outpoint is recorded or overwritten with the supplied script,
the value selected by amount, then amount commitment, then the MAX_MONEY
default, and the synthetic confirmed height 1 — even when the later
redeem-script resolution fails. -/
theorem C9_prevout_conflict_or_record (ext : Externals) (hasKeystore : Bool)
    (es : List (String × UV)) (coins : CoinsMap) (ks : List Script)
    (out : OutPoint) (spk : Script) (cv : ConfValue)
    (hparse : prevParse ext es = Except.ok (out, spk))
    (hval : coinValueFor ext es = Except.ok cv) :
    (∀ c, lookupCoin coins out = some c → c.spent = false → c.out.scriptPubKey ≠ spk →
       parsePrevoutRec ext hasKeystore (UV.obj es) coins ks =
         (Except.error ⟨ErrCode.deserializationError,
            "Previous output scriptPubKey mismatch:\n" ++ ext.scriptToAsm c.out.scriptPubKey ++
            "\nvs:\n" ++ ext.scriptToAsm spk⟩, coins, ks)) ∧
    ((∀ c, lookupCoin coins out = some c → c.spent = false → c.out.scriptPubKey = spk) →
       lookupCoin (parsePrevoutRec ext hasKeystore (UV.obj es) coins ks).2.1 out =
         some ⟨⟨0, cv, spk, []⟩, 1, false⟩) := by
  have hrec : ∀ cs ks0, lookupCoin (recordCoin ext hasKeystore es out spk cs ks0).2.1 out =
      some ⟨⟨0, cv, spk, []⟩, 1, false⟩ := by
    intro cs ks0
    unfold recordCoin
    rw [hval]
    dsimp only
    split
    · cases hkp : prevKeystorePart ext es spk ks0 with
      | error e => exact lookup_coinsInsert_self cs out _
      | ok ks2 => exact lookup_coinsInsert_self cs out _
    · exact lookup_coinsInsert_self cs out _
  constructor
  · intro c hc hsp hne
    unfold parsePrevoutRec
    dsimp only
    rw [hparse]
    dsimp only
    rw [hc]
    dsimp only
    rw [if_pos ⟨hsp, hne⟩]
  · intro hnoc
    unfold parsePrevoutRec
    dsimp only
    rw [hparse]
    dsimp only
    cases hc : lookupCoin coins out with
    | none => exact hrec coins ks
    | some c =>
      dsimp only
      by_cases hcond : c.spent = false ∧ c.out.scriptPubKey ≠ spk
      · exact absurd (hnoc c hc hcond.1) hcond.2
      · rw [if_neg hcond]
        exact hrec coins ks

/-- C9 witness: a fresh outpoint is recorded with the supplied script and the
MAX_MONEY default at height 1. -/
theorem C9_prevout_conflict_or_record_witness :
    (∀ c, lookupCoin [] (⟨3, 0⟩ : OutPoint) = some c → c.spent = false →
       c.out.scriptPubKey ≠ [1] →
       parsePrevoutRec extW true
           (UV.obj [("txid", UV.str "aa"), ("vout", UV.num 0), ("scriptPubKey", UV.str "cc")])
           [] [] =
         (Except.error ⟨ErrCode.deserializationError,
            "Previous output scriptPubKey mismatch:\n" ++ extW.scriptToAsm c.out.scriptPubKey ++
            "\nvs:\n" ++ extW.scriptToAsm [1]⟩, [], [])) ∧
    ((∀ c, lookupCoin [] (⟨3, 0⟩ : OutPoint) = some c → c.spent = false →
        c.out.scriptPubKey = [1]) →
       lookupCoin (parsePrevoutRec extW true
           (UV.obj [("txid", UV.str "aa"), ("vout", UV.num 0), ("scriptPubKey", UV.str "cc")])
           [] []).2.1 (⟨3, 0⟩ : OutPoint) =
         some ⟨⟨0, ConfValue.explicit MAX_MONEY, [1], []⟩, 1, false⟩) :=
  C9_prevout_conflict_or_record extW true
    [("txid", UV.str "aa"), ("vout", UV.num 0), ("scriptPubKey", UV.str "cc")]
    [] [] ⟨3, 0⟩ [1] (ConfValue.explicit MAX_MONEY) rfl rfl

theorem validateLoop_all_pass (ext : Externals) (mtx : CMutableTransaction) (l : List CTxIn)
    (k : Nat) (errs : List (Nat × String)) (imm : Bool)
    (hp : ∀ j txin, l.get? j = some txin → txin.m_is_pegin = true →
       ¬ mtx.witness.length ≤ k + j ∧
       ext.isValidPeginWitness ((mtx.witness.getD (k + j) defaultTxInWitness).m_pegin_witness)
         ext.fedpegscripts txin.prevout false = none ∧
       ext.isValidPeginWitness ((mtx.witness.getD (k + j) defaultTxInWitness).m_pegin_witness)
         ext.fedpegscripts txin.prevout true = none) :
    validateLoop ext mtx k l errs imm = Except.ok (errs, imm) := by
  induction l generalizing k with
  | nil => rfl
  | cons txin rest ih =>
    have hrest : ∀ j t, rest.get? j = some t → t.m_is_pegin = true →
        ¬ mtx.witness.length ≤ (k + 1) + j ∧
        ext.isValidPeginWitness ((mtx.witness.getD ((k + 1) + j) defaultTxInWitness).m_pegin_witness)
          ext.fedpegscripts t.prevout false = none ∧
        ext.isValidPeginWitness ((mtx.witness.getD ((k + 1) + j) defaultTxInWitness).m_pegin_witness)
          ext.fedpegscripts t.prevout true = none := by
      intro j t hj hpt
      have h0 := hp (j + 1) t (by simpa using hj) hpt
      have harr : k + (j + 1) = k + 1 + j := by omega
      rw [harr] at h0
      exact h0
    cases hpeg : txin.m_is_pegin with
    | false =>
      simp only [validateLoop, hpeg, Bool.false_and, Bool.false_eq_true, if_false]
      exact ih (k + 1) hrest
    | true =>
      have h1 : ¬ mtx.witness.length ≤ k := by
        have := (hp 0 txin rfl hpeg).1
        simpa using this
      have h2 : ext.isValidPeginWitness ((mtx.witness.getD k defaultTxInWitness).m_pegin_witness)
          ext.fedpegscripts txin.prevout false = none := by
        have := (hp 0 txin rfl hpeg).2.1
        simpa using this
      have h3 : ext.isValidPeginWitness ((mtx.witness.getD k defaultTxInWitness).m_pegin_witness)
          ext.fedpegscripts txin.prevout true = none := by
        have := (hp 0 txin rfl hpeg).2.2
        simpa using this
      simp only [validateLoop, hpeg, Bool.true_and, decide_eq_false h1, h2, h3,
        Option.isSome_none, Bool.or_self, Bool.false_eq_true, if_false, if_true]
      exact ih (k + 1) hrest

theorem validateLoop_append (ext : Externals) (mtx : CMutableTransaction) (l₁ l₂ : List CTxIn)
    (k : Nat) (errs : List (Nat × String)) (imm : Bool) :
    validateLoop ext mtx k (l₁ ++ l₂) errs imm =
      (match validateLoop ext mtx k l₁ errs imm with
       | Except.ok (e1, i1) => validateLoop ext mtx (k + l₁.length) l₂ e1 i1
       | Except.error e => Except.error e) := by
  induction l₁ generalizing k errs imm with
  | nil =>
    show validateLoop ext mtx k l₂ errs imm = validateLoop ext mtx (k + 0) l₂ errs imm
    rw [Nat.add_zero]
  | cons txin rest ih =>
    have harr : k + 1 + rest.length = k + (rest.length + 1) := by omega
    simp only [List.cons_append, validateLoop, List.append_eq, List.length_cons]
    by_cases hC1 : (txin.m_is_pegin &&
        (decide (mtx.witness.length ≤ k) ||
         (ext.isValidPeginWitness ((mtx.witness.getD k defaultTxInWitness).m_pegin_witness)
           ext.fedpegscripts txin.prevout false).isSome)) = true
    · rw [if_pos hC1, if_pos hC1, ih]
      rw [harr]
    · rw [if_neg hC1, if_neg hC1]
      by_cases hP : txin.m_is_pegin = true
      · rw [if_pos hP, if_pos hP]
        cases hv : ext.isValidPeginWitness
            ((mtx.witness.getD k defaultTxInWitness).m_pegin_witness)
            ext.fedpegscripts txin.prevout true with
        | some e =>
          dsimp only
          by_cases he : e = "Needs more confirmations."
          · rw [if_pos he, if_pos he, ih]
            rw [harr]
          · rw [if_neg he, if_neg he]
        | none =>
          dsimp only
          rw [ih]
          rw [harr]
      · rw [if_neg hP, if_neg hP, ih]
        rw [harr]

/-- C5: a peg-in input whose witness verifies without the depth check but
fails it with the depth check with exactly the message "Needs more
confirmations." produces no per-input error entry; validation reports an
immature flag instead, and — when script signing otherwise succeeds — the
overall result still carries the transaction hex, completeness true, no error
array, and the immaturity warning. -/
theorem C5_immature_pegin_warning (ext : Externals)
    (signer : Int → CMutableTransaction → List (Nat × String) →
      Bool × CMutableTransaction × List (Nat × String))
    (mtx mtx2 : CMutableTransaction) (coins : CoinsMap) (hashType : UV) (i : Nat) (ht : Int)
    (hht : ext.parseSighash hashType = some ht)
    (hi : i < mtx.vin.length)
    (hpeg : (mtx.vin.getD i defaultTxIn).m_is_pegin = true)
    (hwit : i < mtx.witness.length)
    (hndep : ext.isValidPeginWitness ((mtx.witness.getD i defaultTxInWitness).m_pegin_witness)
        ext.fedpegscripts ((mtx.vin.getD i defaultTxIn).prevout) false = none)
    (hdep : ext.isValidPeginWitness ((mtx.witness.getD i defaultTxInWitness).m_pegin_witness)
        ext.fedpegscripts ((mtx.vin.getD i defaultTxIn).prevout) true =
        some "Needs more confirmations.")
    (hothers : ∀ j, j ≠ i → ∀ txin, mtx.vin.get? j = some txin → txin.m_is_pegin = true →
       ¬ mtx.witness.length ≤ j ∧
       ext.isValidPeginWitness ((mtx.witness.getD j defaultTxInWitness).m_pegin_witness)
         ext.fedpegscripts txin.prevout false = none ∧
       ext.isValidPeginWitness ((mtx.witness.getD j defaultTxInWitness).m_pegin_witness)
         ext.fedpegscripts txin.prevout true = none)
    (hsign : signer ht mtx [] = (true, mtx2, [])) :
    validateTransactionPeginInputs ext mtx = Except.ok ([], true) ∧
    signTransactionOrch ext signer mtx coins hashType emptySignResult =
      Except.ok ⟨some (ext.encodeHexTx mtx2), some true, none,
        some "Possibly immature peg-in input(s) detected, signed anyways."⟩ := by
  have hgd : mtx.vin.getD i defaultTxIn = mtx.vin.get ⟨i, hi⟩ := by
    show (mtx.vin.get? i).getD defaultTxIn = _
    rw [List.get?_eq_get hi]
    rfl
  have hpref : ∀ j txin, (mtx.vin.take i).get? j = some txin → txin.m_is_pegin = true →
      ¬ mtx.witness.length ≤ 0 + j ∧
      ext.isValidPeginWitness ((mtx.witness.getD (0 + j) defaultTxInWitness).m_pegin_witness)
        ext.fedpegscripts txin.prevout false = none ∧
      ext.isValidPeginWitness ((mtx.witness.getD (0 + j) defaultTxInWitness).m_pegin_witness)
        ext.fedpegscripts txin.prevout true = none := by
    intro j txin hj hpj
    obtain ⟨hjl, -⟩ := List.get?_eq_some.mp hj
    have hji : j < i := by
      have := hjl
      rw [List.length_take] at this
      omega
    have hvj : mtx.vin.get? j = some txin := by
      rw [← List.get?_take hji]
      exact hj
    have hcon := hothers j (by omega) txin hvj hpj
    simpa using hcon
  have hsuf : ∀ j txin, (mtx.vin.drop (i + 1)).get? j = some txin → txin.m_is_pegin = true →
      ¬ mtx.witness.length ≤ (i + 1) + j ∧
      ext.isValidPeginWitness ((mtx.witness.getD ((i + 1) + j) defaultTxInWitness).m_pegin_witness)
        ext.fedpegscripts txin.prevout false = none ∧
      ext.isValidPeginWitness ((mtx.witness.getD ((i + 1) + j) defaultTxInWitness).m_pegin_witness)
        ext.fedpegscripts txin.prevout true = none := by
    intro j txin hj hpj
    have hvj : mtx.vin.get? ((i + 1) + j) = some txin := by
      rw [← List.get?_drop]
      exact hj
    exact hothers ((i + 1) + j) (by omega) txin hvj hpj
  have hval : validateTransactionPeginInputs ext mtx = Except.ok ([], true) := by
    unfold validateTransactionPeginInputs
    rw [show validateLoop ext mtx 0 mtx.vin [] false =
        validateLoop ext mtx 0 (mtx.vin.take i ++ mtx.vin.drop i) [] false from by
      rw [List.take_append_drop]]
    rw [validateLoop_append]
    rw [validateLoop_all_pass ext mtx (mtx.vin.take i) 0 [] false hpref]
    dsimp only
    rw [show (0 + (mtx.vin.take i).length) = i from by
      rw [List.length_take, Nat.min_eq_left (Nat.le_of_lt hi), Nat.zero_add]]
    rw [List.drop_eq_get_cons hi]
    have hpeg' : (mtx.vin.get ⟨i, hi⟩).m_is_pegin = true := by
      rw [← hgd]
      exact hpeg
    have hndep' : ext.isValidPeginWitness
        ((mtx.witness.getD i defaultTxInWitness).m_pegin_witness)
        ext.fedpegscripts ((mtx.vin.get ⟨i, hi⟩).prevout) false = none := by
      rw [← hgd]
      exact hndep
    have hdep' : ext.isValidPeginWitness
        ((mtx.witness.getD i defaultTxInWitness).m_pegin_witness)
        ext.fedpegscripts ((mtx.vin.get ⟨i, hi⟩).prevout) true =
        some "Needs more confirmations." := by
      rw [← hgd]
      exact hdep
    have hwle : ¬ mtx.witness.length ≤ i := by omega
    simp only [validateLoop, hpeg', Bool.true_and, decide_eq_false hwle, hndep',
      Option.isSome_none, Bool.or_self, Bool.false_eq_true, if_false, hdep',
      eq_self_iff_true, if_true]
    exact validateLoop_all_pass ext mtx (mtx.vin.drop (i + 1)) (i + 1) [] true hsuf
  refine ⟨hval, ?_⟩
  unfold signTransactionOrch
  rw [hht]
  dsimp only
  rw [hval]
  dsimp only
  rw [hsign]
  rfl

/-- C5 witness: a single immature peg-in input yields no error entry, a
warning, the transaction hex and completeness true. -/
theorem C5_immature_pegin_warning_witness :
    validateTransactionPeginInputs extC5 mtxPegin = Except.ok ([], true) ∧
    signTransactionOrch extC5 signerW mtxPegin [] UV.null emptySignResult =
      Except.ok ⟨some (extC5.encodeHexTx mtxPegin), some true, none,
        some "Possibly immature peg-in input(s) detected, signed anyways."⟩ :=
  C5_immature_pegin_warning extC5 signerW mtxPegin mtxPegin [] UV.null 0 1
    rfl (by decide) rfl (by decide) rfl rfl
    (by
      intro j hj txin hget hp
      cases j with
      | zero => exact absurd rfl hj
      | succ n => cases hget)
    rfl
